import Mathlib

/-!
Shallow embedding of the k8sattributes kube cache
(processor/k8sattributesprocessor/internal/kube/client.go).

The embedding models the pod table, the identity resolver, the delete
queue with its grace-period drain, and the per-kind object stores, as
pure functions over an explicit `WatchClient` state.  Go maps are
modelled as association lists with replace-on-insert semantics; machine
time instants are integers; `*metav1.Time` pointers are `Option Int`
(with the nil-tolerant `Before` comparison of the source).
-/

/-- Time instants (nanoseconds since epoch, as in Go `time.Time`). -/
abbrev Time := Int

/-- A `*metav1.Time`: `none` models a nil pointer. -/
abbrev MTime := Option Time

/-- `(*metav1.Time).Before`: strictly-less comparison that returns false
whenever either pointer is nil, exactly as in the Kubernetes API types. -/
def mtimeBefore : MTime → MTime → Bool
  | some t, some u => t < u
  | _, _ => false

/-! Association-list maps with Go map semantics: lookup by key,
replace-on-insert, delete-by-key. -/

def mapLookup {K V : Type} [DecidableEq K] : List (K × V) → K → Option V
  | [], _ => none
  | (k1, v1) :: rest, k => if k1 = k then some v1 else mapLookup rest k

def mapInsert {K V : Type} [DecidableEq K] : List (K × V) → K → V → List (K × V)
  | [], k, v => [(k, v)]
  | (k1, v1) :: rest, k, v =>
      if k1 = k then (k, v) :: rest else (k1, v1) :: mapInsert rest k v

def mapErase {K V : Type} [DecidableEq K] : List (K × V) → K → List (K × V)
  | [], _ => []
  | (k1, v1) :: rest, k =>
      if k1 = k then mapErase rest k else (k1, v1) :: mapErase rest k

/-! Identifier model.  The kube package declares (kube.go, declarations
only, not under src): `PodIdentifier` is a fixed-size array of four
`PodIdentifierAttribute` values, each an `AssociationSource` (a source
kind string and an attribute name) plus a value, compared structurally.
This matches the spec: "Identifier: ordered fixed-size tuple of
(source-kind, key, value); structural equality." -/

/-- Source-kind constant `ConnectionSource` of the kube package. -/
def ConnectionSource : String := "connection"

/-- Source-kind constant `ResourceSource` of the kube package. -/
def ResourceSource : String := "resource_attribute"

structure AssociationSource where
  From : String
  Name : String
deriving DecidableEq

structure PodIdentifierAttribute where
  Source : AssociationSource
  Value : String
deriving DecidableEq

/-- The zero value of `PodIdentifierAttribute` (Go array elements start
at their zero value). -/
def emptyAttr : PodIdentifierAttribute := ⟨⟨"", ""⟩, ""⟩

/-- `PodIdentifier`: ordered fixed-size tuple of four attributes. -/
structure PodIdentifier where
  a0 : PodIdentifierAttribute := emptyAttr
  a1 : PodIdentifierAttribute := emptyAttr
  a2 : PodIdentifierAttribute := emptyAttr
  a3 : PodIdentifierAttribute := emptyAttr
deriving DecidableEq

/-- The all-zero identifier (`PodIdentifier{}` in Go). -/
def emptyIdentifier : PodIdentifier := {}

/-- `ret[i] = a` on the four-slot identifier array.  Configuration
validation bounds association rules by the identifier size, so indices
four and above do not occur; they are mapped to the identity. -/
def setAttr (id : PodIdentifier) (i : Nat) (a : PodIdentifierAttribute) : PodIdentifier :=
  match i with
  | 0 => { id with a0 := a }
  | 1 => { id with a1 := a }
  | 2 => { id with a2 := a }
  | 3 => { id with a3 := a }
  | _ => id

/-- Read slot `i` of an identifier (out-of-range reads give the zero
attribute). -/
def getAttr (id : PodIdentifier) (i : Nat) : PodIdentifierAttribute :=
  match i with
  | 0 => id.a0
  | 1 => id.a1
  | 2 => id.a2
  | 3 => id.a3
  | _ => emptyAttr

/-- Constructor `PodIdentifierAttributeFromSource` of the kube package. -/
def PodIdentifierAttributeFromSource (source : AssociationSource) (value : String) :
    PodIdentifierAttribute :=
  ⟨source, value⟩

/-- Constructor `PodIdentifierAttributeFromConnection` of the kube package. -/
def PodIdentifierAttributeFromConnection (value : String) : PodIdentifierAttribute :=
  PodIdentifierAttributeFromSource ⟨ConnectionSource, ""⟩ value

/-- Constructor `PodIdentifierAttributeFromResourceAttribute` of the kube package. -/
def PodIdentifierAttributeFromResourceAttribute (key value : String) : PodIdentifierAttribute :=
  PodIdentifierAttributeFromSource ⟨ResourceSource, key⟩ value

/-- A one-attribute identifier (`PodIdentifier{attr}` in Go; the three
remaining array slots hold the zero attribute). -/
def singleId (a : PodIdentifierAttribute) : PodIdentifier := { a0 := a }

/-! Attribute-name constants (semconv v1.6.1 and client.go). -/

def K8SNamespaceNameKey : String := "k8s.namespace.name"
def K8SPodNameKey : String := "k8s.pod.name"
def K8SPodUIDKey : String := "k8s.pod.uid"
def HostNameKey : String := "host.name"
def ContainerIDKey : String := "container.id"
def ServiceNameKey : String := "service.name"
def ServiceVersionKey : String := "service.version"
def K8SReplicaSetUIDKey : String := "k8s.replicaset.uid"
def K8SReplicaSetNameKey : String := "k8s.replicaset.name"
def K8SDeploymentNameKey : String := "k8s.deployment.name"
def K8SDeploymentUIDKey : String := "k8s.deployment.uid"
def K8SDaemonSetUIDKey : String := "k8s.daemonset.uid"
def K8SDaemonSetNameKey : String := "k8s.daemonset.name"
def K8SStatefulSetUIDKey : String := "k8s.statefulset.uid"
def K8SStatefulSetNameKey : String := "k8s.statefulset.name"
def K8SJobUIDKey : String := "k8s.job.uid"
def K8SJobNameKey : String := "k8s.job.name"
def K8SCronJobNameKey : String := "k8s.cronjob.name"

/-- `K8sIPLabelName` of the kube package (set by passthrough mode). -/
def K8sIPLabelName : String := "k8s.pod.ip"

def tagNodeName : String := "k8s.node.name"
def tagStartTime : String := "k8s.pod.start_time"
def tagHostName : String := "k8s.pod.hostname"
def tagClusterUID : String := "k8s.cluster.uid"

/-- Annotation key consulted by `shouldIgnorePod` (declared in kube.go,
not under src; the exact string is opaque to every claim). -/
def ignoreAnnotationKey : String := "opentelemetry.io/k8s-processor/ignore"

/-! Extraction-rule configuration (`ExtractionRules` of the kube package;
the boolean toggles are exactly those consulted by client.go). -/

/-- Metadata-source constants of the field extraction rules. -/
def MetadataFromPod : String := "pod"
def MetadataFromNamespace : String := "namespace"
def MetadataFromNode : String := "node"
def MetadataFromDeployment : String := "deployment"
def MetadataFromStatefulSet : String := "statefulset"

/-- Modelled from the spec: `FieldExtractionRule` (declared in kube.go,
not under src).  "label/annotation rule lists with regex key filters":
a rule carries the output attribute name, the metadata key to copy, an
optional compiled key-filter regex (modelled as a predicate on keys),
and the object kind it applies to. -/
structure FieldExtractionRule where
  Name : String
  Key : String
  KeyRegexMatch : Option (String → Bool) := none
  From : String

structure ExtractionRules where
  ClusterUID : Bool := false
  ContainerID : Bool := false
  ContainerImageName : Bool := false
  ContainerImageRepoDigests : Bool := false
  ContainerImageTag : Bool := false
  ContainerName : Bool := false
  CronJobName : Bool := false
  DaemonSetUID : Bool := false
  DaemonSetName : Bool := false
  DeploymentName : Bool := false
  DeploymentUID : Bool := false
  JobUID : Bool := false
  JobName : Bool := false
  Namespace : Bool := false
  PodName : Bool := false
  PodUID : Bool := false
  PodHostName : Bool := false
  PodIP : Bool := false
  ReplicaSetID : Bool := false
  ReplicaSetName : Bool := false
  ServiceNamespace : Bool := false
  ServiceName : Bool := false
  ServiceVersion : Bool := false
  ServiceInstanceID : Bool := false
  StatefulSetUID : Bool := false
  StatefulSetName : Bool := false
  Node : Bool := false
  NodeUID : Bool := false
  StartTime : Bool := false
  Labels : List FieldExtractionRule := []
  Annotations : List FieldExtractionRule := []

/-- Modelled from the spec: a compiled exclude pattern
("Excludes: compiled name-match patterns"); the regexp engine is
modelled as a predicate on pod names. -/
structure ExcludePods where
  NameMatch : String → Bool

structure Excludes where
  Pods : List ExcludePods := []

/-- `Association`: an ordered source-rule list (kube.go declaration). -/
structure Association where
  Name : String := ""
  Sources : List AssociationSource
deriving DecidableEq

/-! Record types of the data model. -/

/-- Key sets of the `PodContainers` maps.  Only the key set of `ByID`
is consulted by the modelled operations (the identifier fan-out in
`getIdentifiersFromAssoc`); per-container metadata values are opaque to
every claim. -/
structure PodContainers where
  ByID : List String := []
  ByName : List String := []
deriving DecidableEq

structure Pod where
  Name : String := ""
  Namespace : String := ""
  NodeName : String := ""
  DeploymentUID : String := ""
  StatefulSetUID : String := ""
  Address : String := ""
  HostNetwork : Bool := false
  PodUID : String := ""
  StartTime : MTime := none
  Ignore : Bool := false
  Attributes : List (String × String) := []
  Containers : PodContainers := {}
deriving DecidableEq

structure NamespaceRecord where
  Name : String := ""
  NamespaceUID : String := ""
  StartTime : Time := 0
  Attributes : List (String × String) := []
deriving DecidableEq

structure Node where
  Name : String := ""
  NodeUID : String := ""
  Attributes : List (String × String) := []
deriving DecidableEq

structure Deployment where
  Name : String := ""
  UID : String := ""
  Attributes : List (String × String) := []
deriving DecidableEq

structure StatefulSet where
  Name : String := ""
  UID : String := ""
  Attributes : List (String × String) := []
deriving DecidableEq

structure ReplicaSet where
  Name : String := ""
  Namespace : String := ""
  UID : String := ""
  Deployment : Deployment := {}
deriving DecidableEq

/-- `deleteRequest` of client.go: identifier, pod name and enqueue time. -/
structure deleteRequest where
  id : PodIdentifier
  podName : String
  ts : Time
deriving DecidableEq

/-! Trimmed API payload types (`api_v1.Pod` and friends after the
`removeUnnecessaryPodData` transform): exactly the fields client.go
reads. -/

structure OwnerReference where
  Kind : String := ""
  Name : String := ""
  UID : String := ""
  Controller : Option Bool := none
deriving DecidableEq

structure APIContainerStatus where
  Name : String := ""
  ContainerID : String := ""
  RestartCount : Int := 0
  ImageID : String := ""
deriving DecidableEq

structure APIContainer where
  Name : String := ""
  Image : String := ""
deriving DecidableEq

structure APIPod where
  Name : String := ""
  Namespace : String := ""
  UID : String := ""
  CreationTimestamp : Time := 0
  Labels : List (String × String) := []
  Annotations : List (String × String) := []
  OwnerReferences : List OwnerReference := []
  PodIP : String := ""
  StartTime : MTime := none
  ContainerStatuses : List APIContainerStatus := []
  InitContainerStatuses : List APIContainerStatus := []
  SpecContainers : List APIContainer := []
  SpecInitContainers : List APIContainer := []
  HostNetwork : Bool := false
  NodeName : String := ""
  Hostname : String := ""
deriving DecidableEq

structure APINamespace where
  Name : String := ""
  UID : String := ""
  CreationTimestamp : Time := 0
  Labels : List (String × String) := []
  Annotations : List (String × String) := []
deriving DecidableEq

structure APINode where
  Name : String := ""
  UID : String := ""
  Labels : List (String × String) := []
  Annotations : List (String × String) := []
deriving DecidableEq

structure APIDeployment where
  Name : String := ""
  UID : String := ""
  Labels : List (String × String) := []
  Annotations : List (String × String) := []
deriving DecidableEq

structure APIStatefulSet where
  Name : String := ""
  UID : String := ""
  Labels : List (String × String) := []
  Annotations : List (String × String) := []
deriving DecidableEq

structure APIReplicaSet where
  Name : String := ""
  Namespace : String := ""
  UID : String := ""
  OwnerReferences : List OwnerReference := []
deriving DecidableEq

/-- The mutable cache state of `WatchClient` (informers, logger,
telemetry and locks carry no cache state and are not modelled). -/
structure WatchClient where
  Rules : ExtractionRules
  Associations : List Association
  Exclude : Excludes
  deleteQueue : List deleteRequest := []
  Pods : List (PodIdentifier × Pod) := []
  Namespaces : List (String × NamespaceRecord) := []
  Nodes : List (String × Node) := []
  Deployments : List (String × Deployment) := []
  StatefulSets : List (String × StatefulSet) := []
  ReplicaSets : List (String × ReplicaSet) := []

/-! Store lookups (client.go `GetPod`, `getReplicaSet`, `getStatefulSet`,
`GetNamespace`, `GetNode`, `GetDeployment`, `GetStatefulSet`). -/

/-- `GetPod`: map lookup that additionally suppresses records flagged
ignore (client.go lines 550-563). -/
def GetPod (c : WatchClient) (identifier : PodIdentifier) : Option Pod :=
  match mapLookup c.Pods identifier with
  | some pod => if pod.Ignore then none else some pod
  | none => none

def GetNamespace (c : WatchClient) (namespaceName : String) : Option NamespaceRecord :=
  mapLookup c.Namespaces namespaceName

def GetNode (c : WatchClient) (nodeName : String) : Option Node :=
  mapLookup c.Nodes nodeName

def GetDeployment (c : WatchClient) (deploymentUID : String) : Option Deployment :=
  mapLookup c.Deployments deploymentUID

def GetStatefulSet (c : WatchClient) (statefulSetUID : String) : Option StatefulSet :=
  mapLookup c.StatefulSets statefulSetUID

def getReplicaSet (c : WatchClient) (uid : String) : Option ReplicaSet :=
  mapLookup c.ReplicaSets uid

def getStatefulSet (c : WatchClient) (uid : String) : Option StatefulSet :=
  mapLookup c.StatefulSets uid

/-! Field extraction (labels and annotations). -/

/-- Modelled from the spec: `FieldExtractionRule.extractFromMetadata`
(kube.go, not under src).  With a key-filter regex the rule copies every
matching metadata entry under the templated name; otherwise it copies
the single configured key under the rule name.  `fmtKey` renders the
per-key attribute-name template of the call site. -/
def extractFromMetadata (kind : String) (r : FieldExtractionRule)
    (metadata : List (String × String)) (tags : List (String × String))
    (fmtKey : String → String) : List (String × String) :=
  if r.From = kind then
    match r.KeyRegexMatch with
    | some keyMatch =>
        metadata.foldl
          (fun t kv => if keyMatch kv.1 then mapInsert t (fmtKey kv.1) kv.2 else t) tags
    | none =>
        match mapLookup metadata r.Key with
        | some v => mapInsert tags r.Name v
        | none => tags
  else tags

def k8sPodLabelsFmt (k : String) : String := "k8s.pod.labels." ++ k
def k8sPodAnnotationsFmt (k : String) : String := "k8s.pod.annotations." ++ k
def k8sNamespaceLabelsFmt (k : String) : String := "k8s.namespace.labels." ++ k
def k8sNamespaceAnnotationsFmt (k : String) : String := "k8s.namespace.annotations." ++ k
def k8sNodeLabelsFmt (k : String) : String := "k8s.node.labels." ++ k
def k8sNodeAnnotationsFmt (k : String) : String := "k8s.node.annotations." ++ k
def k8sDeploymentLabelFmt (k : String) : String := "k8s.deployment.label." ++ k
def k8sDeploymentAnnotationFmt (k : String) : String := "k8s.deployment.annotation." ++ k
def k8sStatefulSetLabelFmt (k : String) : String := "k8s.statefulset.label." ++ k
def k8sStatefulSetAnnotationFmt (k : String) : String := "k8s.statefulset.annotation." ++ k

/-- RFC3339 serialization of a creation timestamp (`ts.MarshalText`).
The textual form is never inspected by any modelled operation, so any
injective rendering serves; decimal rendering is used. -/
def marshalTimeText (t : Time) : String := toString t

/-- The cron-job name regex `^(.*)-\d+$` of client.go: matches when the
name ends in a hyphen followed by one or more digits; the capture is
everything before that hyphen. -/
def cronJobMatch (name : String) : Option String :=
  let rev := name.toList.reverse
  let digits := rev.takeWhile (fun ch => ch.isDigit)
  match rev.drop digits.length with
  | ch :: restRev =>
      if digits ≠ [] ∧ ch = '-' then some (String.mk restRev.reverse) else none
  | [] => none

/-- `copyLabel` (client.go lines 762-766). -/
def copyLabel (pod : APIPod) (tags : List (String × String)) (labelKey key : String) :
    List (String × String) :=
  match mapLookup pod.Labels labelKey with
  | some v => mapInsert tags key v
  | none => tags

/-- The owner-reference guard of `extractPodAttributes` (client.go
lines 644-649). -/
def anyWorkloadRule (r : ExtractionRules) : Bool :=
  r.ReplicaSetID || r.ReplicaSetName ||
  r.DaemonSetUID || r.DaemonSetName ||
  r.JobUID || r.JobName ||
  r.StatefulSetUID || r.StatefulSetName ||
  r.DeploymentName || r.DeploymentUID ||
  r.CronJobName || r.ServiceName

/-- The per-owner-reference switch of `extractPodAttributes`
(client.go lines 650-727). -/
def ownerRefTags (c : WatchClient) (tags : List (String × String)) (ref : OwnerReference) :
    List (String × String) :=
  if ref.Kind = "ReplicaSet" then
    let t := if c.Rules.ReplicaSetID then mapInsert tags K8SReplicaSetUIDKey ref.UID else tags
    let t := if c.Rules.ReplicaSetName then mapInsert t K8SReplicaSetNameKey ref.Name else t
    let t := if c.Rules.ServiceName then mapInsert t ServiceNameKey ref.Name else t
    let t :=
      if c.Rules.DeploymentName || c.Rules.ServiceName then
        match getReplicaSet c ref.UID with
        | some rs =>
            if rs.Deployment.Name ≠ "" then
              let t2 := if c.Rules.DeploymentName then
                  mapInsert t K8SDeploymentNameKey rs.Deployment.Name else t
              if c.Rules.ServiceName then
                mapInsert t2 ServiceNameKey rs.Deployment.Name else t2
            else t
        | none => t
      else t
    if c.Rules.DeploymentUID then
      match getReplicaSet c ref.UID with
      | some rs =>
          if rs.Deployment.Name ≠ "" then mapInsert t K8SDeploymentUIDKey rs.Deployment.UID
          else t
      | none => t
    else t
  else if ref.Kind = "DaemonSet" then
    let t := if c.Rules.DaemonSetUID then mapInsert tags K8SDaemonSetUIDKey ref.UID else tags
    let t := if c.Rules.DaemonSetName then mapInsert t K8SDaemonSetNameKey ref.Name else t
    if c.Rules.ServiceName then mapInsert t ServiceNameKey ref.Name else t
  else if ref.Kind = "StatefulSet" then
    let t := if c.Rules.StatefulSetUID then mapInsert tags K8SStatefulSetUIDKey ref.UID else tags
    let t := if c.Rules.StatefulSetName then mapInsert t K8SStatefulSetNameKey ref.Name else t
    if c.Rules.ServiceName then mapInsert t ServiceNameKey ref.Name else t
  else if ref.Kind = "Job" then
    let t := if c.Rules.JobUID then mapInsert tags K8SJobUIDKey ref.UID else tags
    let t := if c.Rules.JobName then mapInsert t K8SJobNameKey ref.Name else t
    let t := if c.Rules.ServiceName then mapInsert t ServiceNameKey ref.Name else t
    if c.Rules.CronJobName || c.Rules.ServiceName then
      match cronJobMatch ref.Name with
      | some nm =>
          let t2 := if c.Rules.CronJobName then mapInsert t K8SCronJobNameKey nm else t
          if c.Rules.ServiceName then mapInsert t2 ServiceNameKey nm else t2
      | none => t
    else t
  else tags

/-- `extractPodAttributes` (client.go lines 607-760). -/
def extractPodAttributes (c : WatchClient) (pod : APIPod) : List (String × String) :=
  let tags : List (String × String) := []
  let tags := if c.Rules.PodName then mapInsert tags K8SPodNameKey pod.Name else tags
  let tags := if c.Rules.ServiceName then mapInsert tags ServiceNameKey pod.Name else tags
  let tags := if c.Rules.PodHostName then mapInsert tags tagHostName pod.Hostname else tags
  let tags := if c.Rules.PodIP then mapInsert tags K8sIPLabelName pod.PodIP else tags
  let tags := if c.Rules.Namespace then mapInsert tags K8SNamespaceNameKey pod.Namespace else tags
  let tags :=
    if c.Rules.StartTime then
      if pod.CreationTimestamp ≠ 0 then
        mapInsert tags tagStartTime (marshalTimeText pod.CreationTimestamp)
      else tags
    else tags
  let tags := if c.Rules.PodUID then mapInsert tags K8SPodUIDKey pod.UID else tags
  let tags :=
    if anyWorkloadRule c.Rules then pod.OwnerReferences.foldl (ownerRefTags c) tags else tags
  let tags := if c.Rules.Node then mapInsert tags tagNodeName pod.NodeName else tags
  let tags :=
    if c.Rules.ClusterUID then
      match mapLookup c.Namespaces "kube-system" with
      | some val => mapInsert tags tagClusterUID val.NamespaceUID
      | none => tags
    else tags
  let tags := c.Rules.Labels.foldl
    (fun t r => extractFromMetadata MetadataFromPod r pod.Labels t k8sPodLabelsFmt) tags
  let tags :=
    if c.Rules.ServiceName then
      let t1 := copyLabel pod tags "app.kubernetes.io/name" ServiceNameKey
      copyLabel pod t1 "app.kubernetes.io/instance" ServiceNameKey
    else tags
  let tags :=
    if c.Rules.ServiceVersion then copyLabel pod tags "app.kubernetes.io/version" ServiceVersionKey
    else tags
  c.Rules.Annotations.foldl
    (fun t r => extractFromMetadata MetadataFromPod r pod.Annotations t k8sPodAnnotationsFmt) tags

/-- `needContainerAttributes` (client.go lines 1402-1410). -/
def needContainerAttributes (rules : ExtractionRules) : Bool :=
  rules.ContainerImageName ||
  rules.ContainerName ||
  rules.ContainerImageTag ||
  rules.ContainerImageRepoDigests ||
  rules.ContainerID ||
  rules.ServiceVersion ||
  rules.ServiceInstanceID

/-- Container-runtime prefix removal of `extractPodContainersAttributes`
(split on "://" and keep the second part when exactly two parts). -/
def stripRuntime (containerID : String) : String :=
  let parts := containerID.splitOn "://"
  if parts.length = 2 then parts.getD 1 "" else containerID

/-- `extractPodContainersAttributes` (client.go lines 895-964), reduced
to the key sets of the two maps: `ByID` holds the runtime-stripped
container IDs of all container statuses, `ByName` the container names
seen in specs (under the image rules) and statuses.  Go map key sets
are deduplicated. -/
def extractPodContainersAttributes (c : WatchClient) (pod : APIPod) : PodContainers :=
  if !needContainerAttributes c.Rules then {}
  else
    let specNames :=
      if c.Rules.ContainerImageName || c.Rules.ContainerImageTag ||
         c.Rules.ServiceVersion || c.Rules.ServiceInstanceID then
        ((pod.SpecContainers ++ pod.SpecInitContainers).map (fun s => s.Name))
      else []
    let statuses := pod.ContainerStatuses ++ pod.InitContainerStatuses
    { ByID := (statuses.map (fun s => stripRuntime s.ContainerID)).dedup
      ByName := (specNames ++ statuses.map (fun s => s.Name)).dedup }

/-- `strings.ToLower` over the character list (the annotation values
compared here are ASCII). -/
def strToLower (s : String) : String := String.mk (s.toList.map Char.toLower)

/-- `strings.TrimSpace` over the character list. -/
def strTrimSpace (s : String) : String :=
  String.mk (((s.toList.dropWhile Char.isWhitespace).reverse.dropWhile
    Char.isWhitespace).reverse)

/-- `shouldIgnorePod` (client.go lines 1212-1228). -/
def shouldIgnorePod (c : WatchClient) (pod : APIPod) : Bool :=
  (match mapLookup pod.Annotations ignoreAnnotationKey with
   | some v => strToLower (strTrimSpace v) = "true"
   | none => false) ||
  c.Exclude.Pods.any (fun excludedPod => excludedPod.NameMatch pod.Name)

/-- `getPodReplicaSetUID` (client.go lines 1057-1064): UID of the first
ReplicaSet owner reference. -/
def getPodReplicaSetUID : List OwnerReference → String
  | [] => ""
  | ref :: rest => if ref.Kind = "ReplicaSet" then ref.UID else getPodReplicaSetUID rest

/-- `getPodStatefulSetUID` (client.go lines 1066-1073). -/
def getPodStatefulSetUID : List OwnerReference → String
  | [] => ""
  | ref :: rest => if ref.Kind = "StatefulSet" then ref.UID else getPodStatefulSetUID rest

/-- `podFromAPI` (client.go lines 1022-1055). -/
def podFromAPI (c : WatchClient) (pod : APIPod) : Pod :=
  let newPod : Pod :=
    { Name := pod.Name
      Namespace := pod.Namespace
      NodeName := pod.NodeName
      DeploymentUID := ""
      StatefulSetUID := ""
      Address := pod.PodIP
      HostNetwork := pod.HostNetwork
      PodUID := pod.UID
      StartTime := pod.StartTime }
  let newPod :=
    match getReplicaSet c (getPodReplicaSetUID pod.OwnerReferences) with
    | some replicaset =>
        if replicaset.Deployment.UID ≠ "" then
          { newPod with DeploymentUID := replicaset.Deployment.UID }
        else newPod
    | none => newPod
  let newPod :=
    match getStatefulSet c (getPodStatefulSetUID pod.OwnerReferences) with
    | some statefulset => { newPod with StatefulSetUID := statefulset.UID }
    | none => newPod
  if shouldIgnorePod c pod then { newPod with Ignore := true }
  else
    { newPod with
      Attributes := extractPodAttributes c pod
      Containers :=
        if needContainerAttributes c.Rules then extractPodContainersAttributes c pod
        else {} }

/-! Identity resolution (`getIdentifiersFromAssoc`, client.go
lines 1075-1169). -/

/-- Direct resolution of a well-known or custom resource attribute on a
pod record (the `ResourceSource` switch of `getIdentifiersFromAssoc`,
container ID excepted). -/
def resolveResourceAttr (pod : Pod) (name : String) : String :=
  if name = K8SNamespaceNameKey then pod.Namespace
  else if name = K8SPodNameKey then pod.Name
  else if name = K8SPodUIDKey then pod.PodUID
  else if name = HostNameKey then pod.Address
  else if name = K8sIPLabelName then pod.Address
  else (mapLookup pod.Attributes name).getD ""

/-- The per-rule source loop of `getIdentifiersFromAssoc`: walks the
sources of one association with the running index, the identifier under
construction, and the remembered container-ID position (`none` models
the `-1` sentinel of `retID4containerID`).  `none` as result models the
`skip` flag. -/
def buildAssocId (pod : Pod) :
    Nat → List AssociationSource → PodIdentifier → Option Nat →
    Option (PodIdentifier × Option Nat)
  | _, [], ret, pos => some (ret, pos)
  | i, source :: rest, ret, pos =>
    if source.From = ConnectionSource then
      if pod.Address = "" then none
      else if pod.HostNetwork then none
      else
        buildAssocId pod (i + 1) rest
          (setAttr ret i (PodIdentifierAttributeFromSource source pod.Address)) pos
    else if source.From = ResourceSource then
      if source.Name = ContainerIDKey then
        -- only the position is remembered here; the value is filled in
        -- per container ID after the loop
        buildAssocId pod (i + 1) rest
          (setAttr ret i (PodIdentifierAttributeFromSource source "")) (some i)
      else
        if resolveResourceAttr pod source.Name = "" ∧ pos = none then none
        else
          buildAssocId pod (i + 1) rest
            (setAttr ret i
              (PodIdentifierAttributeFromSource source (resolveResourceAttr pod source.Name)))
            pos
    else
      buildAssocId pod (i + 1) rest ret pos

/-- Identifiers contributed by one association rule: none when the rule
is skipped, one per container ID when a container-ID source is present,
one otherwise. -/
def resolveAssoc (pod : Pod) (assoc : Association) : List PodIdentifier :=
  match buildAssocId pod 0 assoc.Sources emptyIdentifier none with
  | none => []
  | some (ret, some pos) =>
      pod.Containers.ByID.map
        (fun cID =>
          setAttr ret pos
            (PodIdentifierAttributeFromSource ⟨ResourceSource, ContainerIDKey⟩ cID))
  | some (ret, none) => [ret]

/-- The backward-compatibility fallback identifiers appended after the
per-rule loop (client.go lines 1150-1166). -/
def podFallbackIdentifiers (pod : Pod) : List PodIdentifier :=
  (if pod.PodUID ≠ "" then
    [singleId (PodIdentifierAttributeFromResourceAttribute K8SPodUIDKey pod.PodUID)]
   else []) ++
  (if pod.Address ≠ "" ∧ pod.HostNetwork = false then
    [singleId (PodIdentifierAttributeFromConnection pod.Address),
     singleId (PodIdentifierAttributeFromResourceAttribute K8sIPLabelName pod.Address)]
   else [])

/-- `getIdentifiersFromAssoc` (client.go lines 1075-1169). -/
def getIdentifiersFromAssoc (associations : List Association) (pod : Pod) :
    List PodIdentifier :=
  (associations.flatMap (resolveAssoc pod)) ++ podFallbackIdentifiers pod

/-! Pod table updates and the delete queue. -/

/-- One iteration of the identifier loop of `addOrUpdatePod`
(client.go lines 1177-1188): replace the entry unless the stored record
has a strictly newer start time. -/
def podWrite (startTime : MTime) (newPod : Pod)
    (pods : List (PodIdentifier × Pod)) (id : PodIdentifier) :
    List (PodIdentifier × Pod) :=
  match mapLookup pods id with
  | some p => if mtimeBefore startTime p.StartTime then pods else mapInsert pods id newPod
  | none => mapInsert pods id newPod

/-- `addOrUpdatePod` (client.go lines 1171-1189). -/
def addOrUpdatePod (c : WatchClient) (pod : APIPod) : WatchClient :=
  let newPod := podFromAPI c pod
  { c with
    Pods :=
      (getIdentifiersFromAssoc c.Associations newPod).foldl (podWrite pod.StartTime newPod)
        c.Pods }

/-- `appendDeleteQueue` (client.go lines 1202-1210); `now` models
`time.Now()`. -/
def appendDeleteQueue (c : WatchClient) (podID : PodIdentifier) (podName : String)
    (now : Time) : WatchClient :=
  { c with deleteQueue := c.deleteQueue ++ [{ id := podID, podName := podName, ts := now }] }

/-- `forgetPod` (client.go lines 1191-1200): queue a delete request for
every identifier whose current visible entry still names the deleted
pod. -/
def forgetPod (c : WatchClient) (pod : APIPod) (now : Time) : WatchClient :=
  let podToRemove := podFromAPI c pod
  (getIdentifiersFromAssoc c.Associations podToRemove).foldl
    (fun st id =>
      match GetPod st id with
      | some p => if p.Name = pod.Name then appendDeleteQueue st id pod.Name now else st
      | none => st)
    c

/-- The cutoff scan of `deleteLoop` (client.go lines 517-527): walk the
queue from the head, stop at the first entry still inside the grace
period (`d.ts.Add(gracePeriod).After(now)`), and split into the entries
to apply and the remaining queue. -/
def drainSplit (now gracePeriod : Time) :
    List deleteRequest → List deleteRequest × List deleteRequest
  | [] => ([], [])
  | d :: rest =>
    if d.ts + gracePeriod > now then ([], d :: rest)
    else
      let s := drainSplit now gracePeriod rest
      (d :: s.1, s.2)

/-- Application of one dequeued delete request (client.go lines
531-539): remove the identifier only if the stored record still carries
the queued pod name. -/
def applyDelete (pods : List (PodIdentifier × Pod)) (d : deleteRequest) :
    List (PodIdentifier × Pod) :=
  match mapLookup pods d.id with
  | some p => if p.Name = d.podName then mapErase pods d.id else pods
  | none => pods

/-- One timer firing of `deleteLoop` (client.go lines 510-548). -/
def deleteLoopTick (c : WatchClient) (now gracePeriod : Time) : WatchClient :=
  let s := drainSplit now gracePeriod c.deleteQueue
  { c with deleteQueue := s.2, Pods := s.1.foldl applyDelete c.Pods }

/-! Non-pod object handlers (client.go lines 1277-1290, 1360-1400,
1412-1464, and the per-kind delete handlers). -/

def extractNamespaceAttributes (c : WatchClient) (namespaceObj : APINamespace) :
    List (String × String) :=
  let tags := c.Rules.Labels.foldl
    (fun t r => extractFromMetadata MetadataFromNamespace r namespaceObj.Labels t
      k8sNamespaceLabelsFmt) []
  c.Rules.Annotations.foldl
    (fun t r => extractFromMetadata MetadataFromNamespace r namespaceObj.Annotations t
      k8sNamespaceAnnotationsFmt) tags

def addOrUpdateNamespace (c : WatchClient) (namespaceObj : APINamespace) : WatchClient :=
  let newNamespace : NamespaceRecord :=
    { Name := namespaceObj.Name
      NamespaceUID := namespaceObj.UID
      StartTime := namespaceObj.CreationTimestamp
      Attributes := extractNamespaceAttributes c namespaceObj }
  if namespaceObj.Name ≠ "" then
    { c with Namespaces := mapInsert c.Namespaces namespaceObj.Name newNamespace }
  else c

def handleNamespaceDelete (c : WatchClient) (namespaceObj : APINamespace) : WatchClient :=
  match mapLookup c.Namespaces namespaceObj.Name with
  | some ns => { c with Namespaces := mapErase c.Namespaces ns.Name }
  | none => c

def extractNodeAttributes (c : WatchClient) (node : APINode) : List (String × String) :=
  let tags := c.Rules.Labels.foldl
    (fun t r => extractFromMetadata MetadataFromNode r node.Labels t k8sNodeLabelsFmt) []
  c.Rules.Annotations.foldl
    (fun t r => extractFromMetadata MetadataFromNode r node.Annotations t
      k8sNodeAnnotationsFmt) tags

def addOrUpdateNode (c : WatchClient) (node : APINode) : WatchClient :=
  let newNode : Node :=
    { Name := node.Name, NodeUID := node.UID, Attributes := extractNodeAttributes c node }
  if node.Name ≠ "" then { c with Nodes := mapInsert c.Nodes node.Name newNode } else c

def handleNodeDelete (c : WatchClient) (node : APINode) : WatchClient :=
  match mapLookup c.Nodes node.Name with
  | some n => { c with Nodes := mapErase c.Nodes n.Name }
  | none => c

def extractDeploymentAttributes (c : WatchClient) (d : APIDeployment) :
    List (String × String) :=
  let tags := c.Rules.Labels.foldl
    (fun t r => extractFromMetadata MetadataFromDeployment r d.Labels t
      k8sDeploymentLabelFmt) []
  c.Rules.Annotations.foldl
    (fun t r => extractFromMetadata MetadataFromDeployment r d.Annotations t
      k8sDeploymentAnnotationFmt) tags

def addOrUpdateDeployment (c : WatchClient) (deployment : APIDeployment) : WatchClient :=
  let newDeployment : Deployment :=
    { Name := deployment.Name
      UID := deployment.UID
      Attributes := extractDeploymentAttributes c deployment }
  if deployment.UID ≠ "" then
    { c with Deployments := mapInsert c.Deployments deployment.UID newDeployment }
  else c

def handleDeploymentDelete (c : WatchClient) (deployment : APIDeployment) : WatchClient :=
  match mapLookup c.Deployments deployment.UID with
  | some n => { c with Deployments := mapErase c.Deployments n.UID }
  | none => c

def extractStatefulSetAttributes (c : WatchClient) (d : APIStatefulSet) :
    List (String × String) :=
  let tags := c.Rules.Labels.foldl
    (fun t r => extractFromMetadata MetadataFromStatefulSet r d.Labels t
      k8sStatefulSetLabelFmt) []
  c.Rules.Annotations.foldl
    (fun t r => extractFromMetadata MetadataFromStatefulSet r d.Annotations t
      k8sStatefulSetAnnotationFmt) tags

def addOrUpdateStatefulSet (c : WatchClient) (statefulset : APIStatefulSet) : WatchClient :=
  let newStatefulSet : StatefulSet :=
    { Name := statefulset.Name
      UID := statefulset.UID
      Attributes := extractStatefulSetAttributes c statefulset }
  if statefulset.UID ≠ "" then
    { c with StatefulSets := mapInsert c.StatefulSets statefulset.UID newStatefulSet }
  else c

def handleStatefulSetDelete (c : WatchClient) (statefulset : APIStatefulSet) : WatchClient :=
  match mapLookup c.StatefulSets statefulset.UID with
  | some n => { c with StatefulSets := mapErase c.StatefulSets n.UID }
  | none => c

/-- The controller owner-reference scan of `addOrUpdateReplicaSet`
(client.go lines 1449-1457). -/
def firstControllerDeployment : List OwnerReference → Deployment
  | [] => {}
  | ref :: rest =>
      if ref.Kind = "Deployment" ∧ ref.Controller = some true then
        { Name := ref.Name, UID := ref.UID }
      else firstControllerDeployment rest

def addOrUpdateReplicaSet (c : WatchClient) (replicaset : APIReplicaSet) : WatchClient :=
  let newReplicaSet : ReplicaSet :=
    { Name := replicaset.Name
      Namespace := replicaset.Namespace
      UID := replicaset.UID
      Deployment := firstControllerDeployment replicaset.OwnerReferences }
  if replicaset.UID ≠ "" then
    { c with ReplicaSets := mapInsert c.ReplicaSets replicaset.UID newReplicaSet }
  else c

def handleReplicaSetDelete (c : WatchClient) (replicaset : APIReplicaSet) : WatchClient :=
  { c with ReplicaSets := mapErase c.ReplicaSets replicaset.UID }

/-! Informer wiring (`New`, client.go lines 121-246, and `Start`,
lines 249-342) and the event model. -/

/-- From `New` (lines 213-231) and `Start` (lines 253-264): the
ReplicaSet informer is created and its handlers registered exactly when
deployment-name or deployment-UID extraction is configured. -/
def replicaSetInformerEnabled (rules : ExtractionRules) : Bool :=
  rules.DeploymentName || rules.DeploymentUID

/-- `extractNamespaceLabelsAnnotations` (client.go lines 1292-1306). -/
def extractNamespaceLabelsAnnotations (rules : ExtractionRules) : Bool :=
  rules.Labels.any (fun r => r.From = MetadataFromNamespace) ||
  rules.Annotations.any (fun r => r.From = MetadataFromNamespace)

/-- `extractNodeLabelsAnnotations` (client.go lines 1340-1354). -/
def extractNodeLabelsAnnotations (rules : ExtractionRules) : Bool :=
  rules.Labels.any (fun r => r.From = MetadataFromNode) ||
  rules.Annotations.any (fun r => r.From = MetadataFromNode)

/-- `extractDeploymentLabelsAnnotations` (client.go lines 1308-1322). -/
def extractDeploymentLabelsAnnotations (rules : ExtractionRules) : Bool :=
  rules.Labels.any (fun r => r.From = MetadataFromDeployment) ||
  rules.Annotations.any (fun r => r.From = MetadataFromDeployment)

/-- `extractStatefulSetLabelsAnnotations` (client.go lines 1324-1338). -/
def extractStatefulSetLabelsAnnotations (rules : ExtractionRules) : Bool :=
  rules.Labels.any (fun r => r.From = MetadataFromStatefulSet) ||
  rules.Annotations.any (fun r => r.From = MetadataFromStatefulSet)

/-- The cache state produced by `New` (client.go lines 137-157): all
maps and the delete queue start empty. -/
def newWatchClient (rules : ExtractionRules) (associations : List Association)
    (exclude : Excludes) : WatchClient :=
  { Rules := rules, Associations := associations, Exclude := exclude }

/-- Watch notifications and timer firings delivered to the cache.
Update events carry only the new object, exactly as the handlers use
them. -/
inductive KubeEvent where
  | podAdd (pod : APIPod)
  | podUpdate (pod : APIPod)
  | podDelete (pod : APIPod) (now : Time)
  | namespaceAdd (ns : APINamespace)
  | namespaceUpdate (ns : APINamespace)
  | namespaceDelete (ns : APINamespace)
  | nodeAdd (node : APINode)
  | nodeUpdate (node : APINode)
  | nodeDelete (node : APINode)
  | deploymentAdd (d : APIDeployment)
  | deploymentUpdate (d : APIDeployment)
  | deploymentDelete (d : APIDeployment)
  | statefulSetAdd (s : APIStatefulSet)
  | statefulSetUpdate (s : APIStatefulSet)
  | statefulSetDelete (s : APIStatefulSet)
  | replicaSetAdd (rs : APIReplicaSet)
  | replicaSetUpdate (rs : APIReplicaSet)
  | replicaSetDelete (rs : APIReplicaSet)
  | drainTick (now : Time) (gracePeriod : Time)
deriving DecidableEq

/-- Event dispatch: each event runs the handler client.go registers for
it (`handlePodAdd`/`handlePodUpdate` both call `addOrUpdatePod`, and so
on for the other kinds). -/
def applyEvent (c : WatchClient) : KubeEvent → WatchClient
  | .podAdd pod => addOrUpdatePod c pod
  | .podUpdate pod => addOrUpdatePod c pod
  | .podDelete pod now => forgetPod c pod now
  | .namespaceAdd ns => addOrUpdateNamespace c ns
  | .namespaceUpdate ns => addOrUpdateNamespace c ns
  | .namespaceDelete ns => handleNamespaceDelete c ns
  | .nodeAdd node => addOrUpdateNode c node
  | .nodeUpdate node => addOrUpdateNode c node
  | .nodeDelete node => handleNodeDelete c node
  | .deploymentAdd d => addOrUpdateDeployment c d
  | .deploymentUpdate d => addOrUpdateDeployment c d
  | .deploymentDelete d => handleDeploymentDelete c d
  | .statefulSetAdd s => addOrUpdateStatefulSet c s
  | .statefulSetUpdate s => addOrUpdateStatefulSet c s
  | .statefulSetDelete s => handleStatefulSetDelete c s
  | .replicaSetAdd rs => addOrUpdateReplicaSet c rs
  | .replicaSetUpdate rs => addOrUpdateReplicaSet c rs
  | .replicaSetDelete rs => handleReplicaSetDelete c rs
  | .drainTick now gracePeriod => deleteLoopTick c now gracePeriod

/-- Which events can reach the cache under a given configuration: a
handler only fires if `New`/`Start` created and registered its
informer.  ReplicaSet handlers are registered only when deployment
identification is configured (`Start`, lines 253-264); node,
deployment and statefulset informers only when their extraction rules
demand them (`New`, lines 233-243); pod and namespace informers and
the delete ticker always run. -/
def eventRegistered (rules : ExtractionRules) : KubeEvent → Bool
  | .replicaSetAdd _ => replicaSetInformerEnabled rules
  | .replicaSetUpdate _ => replicaSetInformerEnabled rules
  | .replicaSetDelete _ => replicaSetInformerEnabled rules
  | .nodeAdd _ => extractNodeLabelsAnnotations rules || rules.NodeUID
  | .nodeUpdate _ => extractNodeLabelsAnnotations rules || rules.NodeUID
  | .nodeDelete _ => extractNodeLabelsAnnotations rules || rules.NodeUID
  | .deploymentAdd _ => extractDeploymentLabelsAnnotations rules
  | .deploymentUpdate _ => extractDeploymentLabelsAnnotations rules
  | .deploymentDelete _ => extractDeploymentLabelsAnnotations rules
  | .statefulSetAdd _ => extractStatefulSetLabelsAnnotations rules
  | .statefulSetUpdate _ => extractStatefulSetLabelsAnnotations rules
  | .statefulSetDelete _ => extractStatefulSetLabelsAnnotations rules
  | _ => true

/-- Run a sequence of events from a starting state. -/
def runEvents (c : WatchClient) (events : List KubeEvent) : WatchClient :=
  events.foldl applyEvent c

/-- Process a sequence of pod Add/Update notifications. -/
def runAddOrUpdate (c : WatchClient) (pods : List APIPod) : WatchClient :=
  pods.foldl addOrUpdatePod c


/-! Derived definitions used by the verification statements. -/

/-- The overwrite condition of the `addOrUpdatePod` loop at one
identifier: an absent entry is always written; a present entry is
written unless it has a strictly newer start time. -/
def canOverwrite (startTime : MTime) : Option Pod → Bool
  | none => true
  | some p => !(mtimeBefore startTime p.StartTime)

/-- The by-pod-UID fallback identifier. -/
def podUIDIdentifier (uid : String) : PodIdentifier :=
  singleId (PodIdentifierAttributeFromResourceAttribute K8SPodUIDKey uid)

/-- The delete requests that one `forgetPod` call appends: one request
per resolved identifier whose current visible entry still names the
deleted pod. -/
def forgetRequests (c : WatchClient) (pod : APIPod) (now : Time) : List deleteRequest :=
  (getIdentifiersFromAssoc c.Associations (podFromAPI c pod)).filterMap
    (fun id =>
      match GetPod c id with
      | some p =>
          if p.Name = pod.Name then some { id := id, podName := pod.Name, ts := now }
          else none
      | none => none)

/-- Does an association rule contain a connection source? -/
def hasConnectionSource (assoc : Association) : Bool :=
  assoc.Sources.any (fun s => s.From == ConnectionSource)

/-- Does an attribute carry the connection source kind? -/
def attrIsConnection (a : PodIdentifierAttribute) : Bool :=
  a.Source.From == ConnectionSource

/-- Does any slot of an identifier carry the connection source kind? -/
def idHasConnection (id : PodIdentifier) : Bool :=
  attrIsConnection id.a0 || attrIsConnection id.a1 || attrIsConnection id.a2 ||
  attrIsConnection id.a3

/-- Does an association rule contain a container-ID resource-attribute
source? -/
def hasContainerIDSource (assoc : Association) : Bool :=
  assoc.Sources.any (fun s => s.From == ResourceSource && s.Name == ContainerIDKey)

/-! Concrete scenarios used by example claims and counterexamples. -/

/-- The spec walkthrough pod: "web-1", UID "u1", address "10.0.0.5",
containers "c1" and "c2". -/
def webExampleAPIPod : APIPod :=
  { Name := "web-1", UID := "u1", PodIP := "10.0.0.5", StartTime := some 0,
    ContainerStatuses :=
      [{ Name := "c1", ContainerID := "containerd://c1" },
       { Name := "c2", ContainerID := "containerd://c2" }] }

/-- A client configured with the single association rule
[resource attribute k8s.pod.uid]. -/
def webExampleClient : WatchClient :=
  newWatchClient {} [{ Sources := [{ From := ResourceSource, Name := K8SPodUIDKey }] }] {}

/-- The resolved record of the walkthrough pod. -/
def webExamplePod : Pod := podFromAPI webExampleClient webExampleAPIPod

/-- An association rule pairing a connection source with a container-ID
source. -/
def c6Assoc : Association :=
  { Sources := [{ From := ConnectionSource, Name := "" },
                { From := ResourceSource, Name := ContainerIDKey }] }

/-- A pod record with one container ID and no address. -/
def c6Pod : Pod := { Name := "p", Containers := { ByID := ["c1"] } }

/-- Scenario for identifier reuse around an ignore-flagged record: a
client with the by-UID association rule. -/
def c10Client0 : WatchClient :=
  newWatchClient {} [{ Sources := [{ From := ResourceSource, Name := K8SPodUIDKey }] }] {}

/-- A plain pod "web". -/
def c10PodA : APIPod := { Name := "web", UID := "u1", StartTime := some 1 }

/-- The same pod carrying the ignore annotation. -/
def c10PodB : APIPod :=
  { Name := "web", UID := "u1", StartTime := some 1,
    Annotations := [(ignoreAnnotationKey, "true")] }

/-- State after: add pod A, receive its delete notification at time 10,
then a reordered update re-adds it with the ignore annotation. -/
def c10State : WatchClient :=
  addOrUpdatePod (forgetPod (addOrUpdatePod c10Client0 c10PodA) c10PodA 10) c10PodB

/-! Generic map lemmas. -/

theorem mapLookup_insert {K V : Type} [DecidableEq K] (m : List (K × V)) (k k2 : K) (v : V) :
    mapLookup (mapInsert m k v) k2 = if k2 = k then some v else mapLookup m k2 := by
  induction m with
  | nil =>
    by_cases h : k2 = k
    · subst h; simp [mapInsert, mapLookup]
    · have h2 : ¬ k = k2 := fun hh => h hh.symm
      simp [mapInsert, mapLookup, h, h2]
  | cons hd tl ih =>
    obtain ⟨k1, v1⟩ := hd
    by_cases h1 : k1 = k
    · subst h1
      by_cases h2 : k2 = k1
      · subst h2; simp [mapInsert, mapLookup]
      · have h2b : ¬ k1 = k2 := fun hh => h2 hh.symm
        simp [mapInsert, mapLookup, h2, h2b]
    · by_cases h2 : k1 = k2
      · subst h2
        have h3 : ¬ k1 = k := h1
        simp [mapInsert, mapLookup, h1, h3]
      · simp [mapInsert, mapLookup, h1, h2, ih]

theorem mapLookup_erase {K V : Type} [DecidableEq K] (m : List (K × V)) (k k2 : K) :
    mapLookup (mapErase m k) k2 = if k2 = k then none else mapLookup m k2 := by
  induction m with
  | nil => by_cases h : k2 = k <;> simp [mapErase, mapLookup, h]
  | cons hd tl ih =>
    obtain ⟨k1, v1⟩ := hd
    by_cases h1 : k1 = k
    · subst h1
      by_cases h2 : k2 = k1
      · subst h2; simp [mapErase, mapLookup, ih]
      · have h2b : ¬ k1 = k2 := fun hh => h2 hh.symm
        simp [mapErase, mapLookup, h2, h2b, ih]
    · by_cases h2 : k1 = k2
      · subst h2
        have h3 : ¬ k1 = k := h1
        simp [mapErase, mapLookup, h1, h3]
      · simp [mapErase, mapLookup, h1, h2, ih]

theorem mtimeBefore_irrefl (t : MTime) : mtimeBefore t t = false := by
  cases t with
  | none => rfl
  | some v => simp [mtimeBefore]

/-! Effect of `addOrUpdatePod` at a single identifier. -/

theorem podWrite_lookup (startTime : MTime) (newPod : Pod)
    (pods : List (PodIdentifier × Pod)) (d id : PodIdentifier) :
    mapLookup (podWrite startTime newPod pods d) id =
      if id = d ∧ canOverwrite startTime (mapLookup pods d) = true then some newPod
      else mapLookup pods id := by
  unfold podWrite
  cases hl : mapLookup pods d with
  | none =>
    by_cases h : id = d <;> simp [canOverwrite, mapLookup_insert, h, hl]
  | some p =>
    by_cases hb : mtimeBefore startTime p.StartTime
    · simp [hb, canOverwrite]
    · by_cases h : id = d <;>
        simp [hb, canOverwrite, mapLookup_insert, h, hl]

theorem foldWrite_lookup (startTime : MTime) (newPod : Pod)
    (ids : List PodIdentifier) (pods : List (PodIdentifier × Pod)) (id : PodIdentifier) :
    mapLookup (ids.foldl (podWrite startTime newPod) pods) id =
      if id ∈ ids ∧ canOverwrite startTime (mapLookup pods id) = true then some newPod
      else mapLookup pods id := by
  induction ids generalizing pods with
  | nil => simp
  | cons d rest ih =>
    simp only [List.foldl_cons]
    rw [ih]
    by_cases hid : id = d
    · subst hid
      by_cases hc : canOverwrite startTime (mapLookup pods id) = true
      · have h1 : mapLookup (podWrite startTime newPod pods id) id = some newPod := by
          rw [podWrite_lookup]; simp [hc]
        by_cases hm : id ∈ rest <;> simp [h1, hm, hc]
      · have h0 : podWrite startTime newPod pods id = pods := by
          unfold podWrite
          cases hl : mapLookup pods id with
          | none => exact absurd (by simp [hl, canOverwrite]) hc
          | some p =>
            simp only [hl]
            by_cases hb : mtimeBefore startTime p.StartTime
            · simp [hb]
            · exact absurd (by simp [hl, canOverwrite, hb]) hc
        simp [h0, hc]
    · have h1 : mapLookup (podWrite startTime newPod pods d) id = mapLookup pods id := by
        rw [podWrite_lookup]; simp [hid]
      rw [h1]
      by_cases hm : id ∈ rest <;> simp [hm, hid]

theorem addOrUpdatePod_lookup (c : WatchClient) (pod : APIPod) (id : PodIdentifier) :
    mapLookup (addOrUpdatePod c pod).Pods id =
      if id ∈ getIdentifiersFromAssoc c.Associations (podFromAPI c pod) ∧
         canOverwrite pod.StartTime (mapLookup c.Pods id) = true
      then some (podFromAPI c pod)
      else mapLookup c.Pods id := by
  unfold addOrUpdatePod
  exact foldWrite_lookup pod.StartTime (podFromAPI c pod) _ c.Pods id

/-! Record-field facts about `podFromAPI`. -/

theorem podFromAPI_StartTime (c : WatchClient) (pod : APIPod) :
    (podFromAPI c pod).StartTime = pod.StartTime := by
  unfold podFromAPI
  repeat' split
  all_goals rfl

theorem podFromAPI_PodUID (c : WatchClient) (pod : APIPod) :
    (podFromAPI c pod).PodUID = pod.UID := by
  unfold podFromAPI
  repeat' split
  all_goals rfl

theorem podFromAPI_Name (c : WatchClient) (pod : APIPod) :
    (podFromAPI c pod).Name = pod.Name := by
  unfold podFromAPI
  repeat' split
  all_goals rfl

theorem podUIDIdentifier_mem (associations : List Association) (pod : Pod)
    (h : pod.PodUID ≠ "") :
    podUIDIdentifier pod.PodUID ∈ getIdentifiersFromAssoc associations pod := by
  unfold getIdentifiersFromAssoc podFallbackIdentifiers podUIDIdentifier
  simp [h]

/-! Facts about `List.foldl max`. -/

theorem foldlMax_ge_init (l : List Int) (t : Int) : t ≤ l.foldl max t := by
  induction l generalizing t with
  | nil => simp
  | cons a rest ih => exact le_trans (le_max_left t a) (ih (max t a))

theorem foldlMax_ge_mem (l : List Int) (t : Int) : ∀ s ∈ l, s ≤ l.foldl max t := by
  induction l generalizing t with
  | nil => simp
  | cons a rest ih =>
    intro s hs
    rcases List.mem_cons.mp hs with rfl | hs2
    · exact le_trans (le_max_right t s) (foldlMax_ge_init rest (max t s))
    · exact ih (max t a) s hs2

/-! Convergence of the pod table under repeated Add/Update events for a
single pod UID. -/

theorem runAddOrUpdate_uid_aux (events : List APIPod) :
    ∀ (c : WatchClient) (u : String) (r : Pod) (t : Int),
      u ≠ "" →
      (∀ e ∈ events, e.UID = u ∧ (e.StartTime).isSome) →
      mapLookup c.Pods (podUIDIdentifier u) = some r →
      r.StartTime = some t →
      ∃ (r2 : Pod) (t2 : Int),
        mapLookup (runAddOrUpdate c events).Pods (podUIDIdentifier u) = some r2 ∧
        r2.StartTime = some t2 ∧
        (t2 = t ∨ some t2 ∈ events.map (fun e => e.StartTime)) ∧
        t ≤ t2 ∧
        ∀ e ∈ events, ∀ s, e.StartTime = some s → s ≤ t2 := by
  induction events with
  | nil =>
    intro c u r t _ _ hl ht
    exact ⟨r, t, hl, ht, Or.inl rfl, le_refl t, by simp⟩
  | cons e rest ih =>
    intro c u r t hu hall hl ht
    obtain ⟨heu, hes⟩ := hall e (List.mem_cons_self e rest)
    obtain ⟨s, hs⟩ := Option.isSome_iff_exists.mp hes
    have hmem : podUIDIdentifier u ∈
        getIdentifiersFromAssoc c.Associations (podFromAPI c e) := by
      have h1 : (podFromAPI c e).PodUID = u := by rw [podFromAPI_PodUID, heu]
      have := podUIDIdentifier_mem c.Associations (podFromAPI c e) (by rw [h1]; exact hu)
      rwa [h1] at this
    have hrest : ∀ e2 ∈ rest, e2.UID = u ∧ (e2.StartTime).isSome :=
      fun e2 h2 => hall e2 (List.mem_cons_of_mem e h2)
    have hrun : runAddOrUpdate c (e :: rest) = runAddOrUpdate (addOrUpdatePod c e) rest := rfl
    by_cases hlt : s < t
    · -- strictly older event: the stored record survives
      have hco : canOverwrite e.StartTime (some r) = false := by
        simp [canOverwrite, mtimeBefore, hs, ht, hlt]
      have hkeep : mapLookup (addOrUpdatePod c e).Pods (podUIDIdentifier u) = some r := by
        rw [addOrUpdatePod_lookup]
        simp [hl, hco]
      obtain ⟨r2, t2, h1, h2, h3, h4, h5⟩ :=
        ih (addOrUpdatePod c e) u r t hu hrest hkeep ht
      refine ⟨r2, t2, by rw [hrun]; exact h1, h2, ?_, h4, ?_⟩
      · rcases h3 with h3 | h3
        · exact Or.inl h3
        · exact Or.inr (by simpa using Or.inr (by simpa using h3))
      · intro e2 h2m s2 hs2
        rcases List.mem_cons.mp h2m with rfl | h2m
        · rw [hs] at hs2
          cases hs2
          exact le_trans (le_of_lt hlt) h4
        · exact h5 e2 h2m s2 hs2
    · -- the event is at least as new: it replaces the entry
      have hco : canOverwrite e.StartTime (some r) = true := by
        simp [canOverwrite, mtimeBefore, hs, ht, hlt]
      have hnew : mapLookup (addOrUpdatePod c e).Pods (podUIDIdentifier u) =
          some (podFromAPI c e) := by
        rw [addOrUpdatePod_lookup]
        simp [hl, hco, hmem]
      have hnewt : (podFromAPI c e).StartTime = some s := by
        rw [podFromAPI_StartTime, hs]
      obtain ⟨r2, t2, h1, h2, h3, h4, h5⟩ :=
        ih (addOrUpdatePod c e) u (podFromAPI c e) s hu hrest hnew hnewt
      refine ⟨r2, t2, by rw [hrun]; exact h1, h2, ?_, le_trans (le_of_not_lt hlt) h4, ?_⟩
      · rcases h3 with h3 | h3
        · exact Or.inr (by simp [← h3, hs])
        · exact Or.inr (by simpa using Or.inr (by simpa using h3))
      · intro e2 h2m s2 hs2
        rcases List.mem_cons.mp h2m with rfl | h2m
        · rw [hs] at hs2
          cases hs2
          exact h4
        · exact h5 e2 h2m s2 hs2

/-- Claim C1: for every identifier and every Add/Update pod event
processed by `addOrUpdatePod`, an existing table entry under that
identifier is replaced only if the incoming start time is not strictly
before the stored start time (a strictly older event leaves the entry
untouched); ties overwrite; and over any sequence of Add/Update events
for one pod UID the table converges to a record whose start time is the
latest observed start time. -/
theorem c1_addOrUpdatePod_startTime_monotone :
    (∀ (c : WatchClient) (pod : APIPod) (id : PodIdentifier) (p : Pod),
       mapLookup c.Pods id = some p →
       mtimeBefore pod.StartTime p.StartTime = true →
       mapLookup (addOrUpdatePod c pod).Pods id = some p) ∧
    (∀ (c : WatchClient) (pod : APIPod) (id : PodIdentifier) (p : Pod),
       mapLookup c.Pods id = some p →
       pod.StartTime = p.StartTime →
       id ∈ getIdentifiersFromAssoc c.Associations (podFromAPI c pod) →
       mapLookup (addOrUpdatePod c pod).Pods id = some (podFromAPI c pod)) ∧
    (∀ (c : WatchClient) (events : List APIPod) (u : String),
       u ≠ "" →
       (∀ e ∈ events, e.UID = u ∧ (e.StartTime).isSome) →
       mapLookup c.Pods (podUIDIdentifier u) = none →
       events ≠ [] →
       ∃ (r : Pod) (t : Int),
         mapLookup (runAddOrUpdate c events).Pods (podUIDIdentifier u) = some r ∧
         r.StartTime = some t ∧
         some t ∈ events.map (fun e => e.StartTime) ∧
         ∀ e ∈ events, ∀ s, e.StartTime = some s → s ≤ t) := by
  refine ⟨?_, ?_, ?_⟩
  · intro c pod id p hl hb
    have hco : canOverwrite pod.StartTime (some p) = false := by
      simp [canOverwrite, hb]
    rw [addOrUpdatePod_lookup]
    simp [hl, hco]
  · intro c pod id p hl he hmem
    have hco : canOverwrite pod.StartTime (some p) = true := by
      simp [canOverwrite, he, mtimeBefore_irrefl]
    rw [addOrUpdatePod_lookup]
    simp [hl, hco, hmem]
  · intro c events u hu hall hnone hne
    cases events with
    | nil => exact absurd rfl hne
    | cons e rest =>
      obtain ⟨heu, hes⟩ := hall e (List.mem_cons_self e rest)
      obtain ⟨s, hs⟩ := Option.isSome_iff_exists.mp hes
      have hmem : podUIDIdentifier u ∈
          getIdentifiersFromAssoc c.Associations (podFromAPI c e) := by
        have h1 : (podFromAPI c e).PodUID = u := by rw [podFromAPI_PodUID, heu]
        have := podUIDIdentifier_mem c.Associations (podFromAPI c e) (by rw [h1]; exact hu)
        rwa [h1] at this
      have hfirst : mapLookup (addOrUpdatePod c e).Pods (podUIDIdentifier u) =
          some (podFromAPI c e) := by
        rw [addOrUpdatePod_lookup]
        simp [hnone, hmem, canOverwrite]
      have hstart : (podFromAPI c e).StartTime = some s := by
        rw [podFromAPI_StartTime, hs]
      have hrest : ∀ e2 ∈ rest, e2.UID = u ∧ (e2.StartTime).isSome :=
        fun e2 h2 => hall e2 (List.mem_cons_of_mem e h2)
      obtain ⟨r2, t2, h1, h2, h3, h4, h5⟩ :=
        runAddOrUpdate_uid_aux rest (addOrUpdatePod c e) u (podFromAPI c e) s hu hrest
          hfirst hstart
      refine ⟨r2, t2, h1, h2, ?_, ?_⟩
      · rcases h3 with h3 | h3
        · exact List.mem_cons.mpr (Or.inl (by simp [h3, hs]))
        · exact List.mem_cons.mpr (Or.inr (by simpa using h3))
      · intro e2 h2m s2 hs2
        rcases List.mem_cons.mp h2m with rfl | h2m
        · rw [hs] at hs2
          cases hs2
          exact h4
        · exact h5 e2 h2m s2 hs2

/-- Witness for C1: concrete instantiations of all three conjuncts (an
older update is ignored, a tie overwrites, and a two-event sequence
converges to the latest start time). -/
theorem c1_witness :
    (mapLookup (addOrUpdatePod
        { Rules := {}, Associations := [], Exclude := {},
          Pods := [(podUIDIdentifier "u1",
                    { Name := "web", PodUID := "u1", StartTime := some 5 })] }
        { Name := "web", UID := "u1", StartTime := some 3 }).Pods
      (podUIDIdentifier "u1") =
      some { Name := "web", PodUID := "u1", StartTime := some 5 }) ∧
    (∃ (r : Pod) (t : Int),
       mapLookup (runAddOrUpdate
           { Rules := {}, Associations := [], Exclude := {} }
           [{ Name := "web", UID := "u1", StartTime := some 3 },
            { Name := "web", UID := "u1", StartTime := some 7 }]).Pods
         (podUIDIdentifier "u1") = some r ∧
       r.StartTime = some t ∧
       some t ∈ ([{ Name := "web", UID := "u1", StartTime := some 3 },
                  { Name := "web", UID := "u1", StartTime := some 7 }] :
           List APIPod).map (fun e => e.StartTime) ∧
       ∀ e ∈ ([{ Name := "web", UID := "u1", StartTime := some 3 },
               { Name := "web", UID := "u1", StartTime := some 7 }] : List APIPod),
         ∀ s, e.StartTime = some s → s ≤ t) := by
  constructor
  · exact c1_addOrUpdatePod_startTime_monotone.1
      { Rules := {}, Associations := [], Exclude := {},
        Pods := [(podUIDIdentifier "u1",
                  { Name := "web", PodUID := "u1", StartTime := some 5 })] }
      { Name := "web", UID := "u1", StartTime := some 3 }
      (podUIDIdentifier "u1")
      { Name := "web", PodUID := "u1", StartTime := some 5 }
      (by decide) (by decide)
  · exact c1_addOrUpdatePod_startTime_monotone.2.2
      { Rules := {}, Associations := [], Exclude := {} }
      [{ Name := "web", UID := "u1", StartTime := some 3 },
       { Name := "web", UID := "u1", StartTime := some 7 }]
      "u1" (by decide) (by decide) (by decide) (by decide)

/-! `forgetPod` only appends delete requests. -/

theorem GetPod_eq_of_pods (st c : WatchClient) (id : PodIdentifier)
    (h : st.Pods = c.Pods) : GetPod st id = GetPod c id := by
  unfold GetPod
  rw [h]

theorem forgetFold_eq (c : WatchClient) (pod : APIPod) (now : Time) :
    ∀ (ids : List PodIdentifier) (st : WatchClient), st.Pods = c.Pods →
      ids.foldl (fun st id =>
          match GetPod st id with
          | some p => if p.Name = pod.Name then appendDeleteQueue st id pod.Name now else st
          | none => st) st =
      { st with
        deleteQueue := st.deleteQueue ++ ids.filterMap (fun id =>
          match GetPod c id with
          | some p =>
              if p.Name = pod.Name then some { id := id, podName := pod.Name, ts := now }
              else none
          | none => none) } := by
  intro ids
  induction ids with
  | nil => intro st h; simp
  | cons id rest ih =>
    intro st h
    simp only [List.foldl_cons, List.filterMap_cons]
    have hg : GetPod st id = GetPod c id := GetPod_eq_of_pods st c id h
    cases hgp : GetPod c id with
    | none =>
      rw [hg, hgp]
      exact ih st h
    | some p =>
      rw [hg, hgp]
      by_cases hn : p.Name = pod.Name
      · simp only [hn, if_true]
        have h2 : (appendDeleteQueue st id pod.Name now).Pods = c.Pods := h
        rw [ih (appendDeleteQueue st id pod.Name now) h2]
        simp [appendDeleteQueue]
      · simp only [hn, if_false]
        rw [ih st h]

theorem forgetPod_eq (c : WatchClient) (pod : APIPod) (now : Time) :
    forgetPod c pod now =
      { c with deleteQueue := c.deleteQueue ++ forgetRequests c pod now } := by
  unfold forgetPod forgetRequests
  exact forgetFold_eq c pod now _ c rfl

/-- Claim C7: GetPod returns a record exactly when the pod table maps
the identifier to a record whose ignore flag is unset; an ignore-flagged
entry makes GetPod return nothing while the table entry itself is
untouched (GetPod is a pure read of the state). -/
theorem c7_GetPod_ignore_suppression :
    ∀ (c : WatchClient) (id : PodIdentifier),
      (∀ p : Pod, GetPod c id = some p ↔
        (mapLookup c.Pods id = some p ∧ p.Ignore = false)) ∧
      (∀ p : Pod, mapLookup c.Pods id = some p → p.Ignore = true →
        GetPod c id = none) := by
  intro c id
  constructor
  · intro p
    unfold GetPod
    cases hl : mapLookup c.Pods id with
    | none => simp
    | some q =>
      by_cases hi : q.Ignore
      · simp only [hi, if_true]
        constructor
        · intro h; cases h
        · rintro ⟨hq, hpi⟩
          cases hq
          rw [hi] at hpi
          cases hpi
      · simp only [hi, if_false]
        constructor
        · intro h
          cases h
          exact ⟨rfl, by simpa using hi⟩
        · rintro ⟨hq, _⟩
          cases hq
          rfl
  · intro p hl hi
    unfold GetPod
    rw [hl]
    simp [hi]

/-- Witness for C7: a concrete ignore-flagged entry is hidden while a
plain entry is returned. -/
theorem c7_witness :
    GetPod
      { Rules := {}, Associations := [], Exclude := {},
        Pods := [(podUIDIdentifier "u1",
                  { Name := "web", PodUID := "u1", Ignore := true })] }
      (podUIDIdentifier "u1") = none := by
  exact (c7_GetPod_ignore_suppression
      { Rules := {}, Associations := [], Exclude := {},
        Pods := [(podUIDIdentifier "u1",
                  { Name := "web", PodUID := "u1", Ignore := true })] }
      (podUIDIdentifier "u1")).2
    { Name := "web", PodUID := "u1", Ignore := true } (by decide) (by decide)

/-- Claim C8: handling a pod delete notification never removes a pod
table entry: `forgetPod` leaves the Pods map unchanged and only appends
delete requests (identifier, pod name, timestamp now) for identifiers
whose current visible entry still names the deleted pod; and no cache
event other than the eviction drain tick removes a pod-table entry. -/
theorem c8_forgetPod_frame :
    (∀ (c : WatchClient) (pod : APIPod) (now : Time),
       (forgetPod c pod now).Pods = c.Pods ∧
       (forgetPod c pod now).deleteQueue = c.deleteQueue ++ forgetRequests c pod now ∧
       ∀ d ∈ forgetRequests c pod now,
         d.podName = pod.Name ∧ d.ts = now ∧
         ∃ p, GetPod c d.id = some p ∧ p.Name = pod.Name) ∧
    (∀ (c : WatchClient) (e : KubeEvent) (id : PodIdentifier) (p : Pod),
       (∀ now gracePeriod, e ≠ KubeEvent.drainTick now gracePeriod) →
       mapLookup c.Pods id = some p →
       ∃ q, mapLookup (applyEvent c e).Pods id = some q) := by
  constructor
  · intro c pod now
    refine ⟨by rw [forgetPod_eq], by rw [forgetPod_eq], ?_⟩
    intro d hd
    unfold forgetRequests at hd
    obtain ⟨id0, _, hf⟩ := List.mem_filterMap.mp hd
    cases hgp : GetPod c id0 with
    | none => rw [hgp] at hf; cases hf
    | some q =>
      rw [hgp] at hf
      by_cases hn : q.Name = pod.Name
      · simp only [hn, if_true, Option.some.injEq] at hf
        subst hf
        exact ⟨rfl, rfl, q, hgp, hn⟩
      · simp [hn] at hf
  · intro c e id p hnd hl
    cases e with
    | podAdd pod =>
      simp only [applyEvent]
      rw [addOrUpdatePod_lookup]
      by_cases hcond : id ∈ getIdentifiersFromAssoc c.Associations (podFromAPI c pod) ∧
          canOverwrite pod.StartTime (mapLookup c.Pods id) = true
      · exact ⟨podFromAPI c pod, by rw [if_pos hcond]⟩
      · exact ⟨p, by rw [if_neg hcond]; exact hl⟩
    | podUpdate pod =>
      simp only [applyEvent]
      rw [addOrUpdatePod_lookup]
      by_cases hcond : id ∈ getIdentifiersFromAssoc c.Associations (podFromAPI c pod) ∧
          canOverwrite pod.StartTime (mapLookup c.Pods id) = true
      · exact ⟨podFromAPI c pod, by rw [if_pos hcond]⟩
      · exact ⟨p, by rw [if_neg hcond]; exact hl⟩
    | podDelete pod now =>
      refine ⟨p, ?_⟩
      simp only [applyEvent]
      rw [forgetPod_eq]
      exact hl
    | namespaceAdd ns =>
      refine ⟨p, ?_⟩
      simp only [applyEvent, addOrUpdateNamespace]
      split <;> exact hl
    | namespaceUpdate ns =>
      refine ⟨p, ?_⟩
      simp only [applyEvent, addOrUpdateNamespace]
      split <;> exact hl
    | namespaceDelete ns =>
      refine ⟨p, ?_⟩
      simp only [applyEvent, handleNamespaceDelete]
      split <;> exact hl
    | nodeAdd node =>
      refine ⟨p, ?_⟩
      simp only [applyEvent, addOrUpdateNode]
      split <;> exact hl
    | nodeUpdate node =>
      refine ⟨p, ?_⟩
      simp only [applyEvent, addOrUpdateNode]
      split <;> exact hl
    | nodeDelete node =>
      refine ⟨p, ?_⟩
      simp only [applyEvent, handleNodeDelete]
      split <;> exact hl
    | deploymentAdd d =>
      refine ⟨p, ?_⟩
      simp only [applyEvent, addOrUpdateDeployment]
      split <;> exact hl
    | deploymentUpdate d =>
      refine ⟨p, ?_⟩
      simp only [applyEvent, addOrUpdateDeployment]
      split <;> exact hl
    | deploymentDelete d =>
      refine ⟨p, ?_⟩
      simp only [applyEvent, handleDeploymentDelete]
      split <;> exact hl
    | statefulSetAdd s =>
      refine ⟨p, ?_⟩
      simp only [applyEvent, addOrUpdateStatefulSet]
      split <;> exact hl
    | statefulSetUpdate s =>
      refine ⟨p, ?_⟩
      simp only [applyEvent, addOrUpdateStatefulSet]
      split <;> exact hl
    | statefulSetDelete s =>
      refine ⟨p, ?_⟩
      simp only [applyEvent, handleStatefulSetDelete]
      split <;> exact hl
    | replicaSetAdd rs =>
      refine ⟨p, ?_⟩
      simp only [applyEvent, addOrUpdateReplicaSet]
      split <;> exact hl
    | replicaSetUpdate rs =>
      refine ⟨p, ?_⟩
      simp only [applyEvent, addOrUpdateReplicaSet]
      split <;> exact hl
    | replicaSetDelete rs =>
      refine ⟨p, ?_⟩
      simp only [applyEvent, handleReplicaSetDelete]
      exact hl
    | drainTick now gracePeriod => exact absurd rfl (hnd now gracePeriod)

/-- Witness for C8: the delete notification for a concrete pod leaves
the table unchanged, and a concrete namespace event preserves a
concrete pod entry. -/
theorem c8_witness :
    (forgetPod c10Client0 c10PodA 10).Pods = c10Client0.Pods ∧
    ∃ q, mapLookup (applyEvent
        { Rules := {}, Associations := [], Exclude := {},
          Pods := [(podUIDIdentifier "u1", { Name := "web", PodUID := "u1" })] }
        (KubeEvent.namespaceAdd { Name := "ns1" })).Pods
      (podUIDIdentifier "u1") = some q := by
  constructor
  · exact (c8_forgetPod_frame.1 c10Client0 c10PodA 10).1
  · exact c8_forgetPod_frame.2
      { Rules := {}, Associations := [], Exclude := {},
        Pods := [(podUIDIdentifier "u1", { Name := "web", PodUID := "u1" })] }
      (KubeEvent.namespaceAdd { Name := "ns1" }) (podUIDIdentifier "u1")
      { Name := "web", PodUID := "u1" } (by intro now g h; cases h) (by decide)

/-- Claim C10 (amended): a delete notification enqueues no
DeleteRequest for any identifier whose stored table record has the
ignore flag set, because forgetPod checks the current entry via GetPod,
which hides ignore-flagged records; the entry can nevertheless be
removed by the eviction drain through a request enqueued earlier under
the same identifier and pod name. -/
theorem c10_ignored_identifier_not_enqueued :
    ∀ (c : WatchClient) (pod : APIPod) (now : Time) (id : PodIdentifier) (p : Pod),
      mapLookup c.Pods id = some p → p.Ignore = true →
      ∀ d ∈ (forgetPod c pod now).deleteQueue, d ∈ c.deleteQueue ∨ d.id ≠ id := by
  intro c pod now id p hl hi d hd
  rw [forgetPod_eq] at hd
  simp only [List.mem_append] at hd
  rcases hd with hd | hd
  · exact Or.inl hd
  · right
    unfold forgetRequests at hd
    obtain ⟨id0, _, hf⟩ := List.mem_filterMap.mp hd
    cases hgp : GetPod c id0 with
    | none => rw [hgp] at hf; cases hf
    | some q =>
      rw [hgp] at hf
      by_cases hn : q.Name = pod.Name
      · simp only [hn, if_true, Option.some.injEq] at hf
        subst hf
        intro heq
        have heq2 : id0 = id := heq
        rw [heq2] at hgp
        have : GetPod c id = none := by
          unfold GetPod
          rw [hl]
          simp [hi]
        rw [this] at hgp
        cases hgp
      · simp [hn] at hf

/-- Witness for C10 (amended): in the reordered-ignore scenario a
request found in the queue after a further delete notification was
already queued before it (none targets the ignore-flagged identifier
anew). -/
theorem c10_witness :
    ({ id := podUIDIdentifier "u1", podName := "web", ts := 10 } : deleteRequest) ∈
        c10State.deleteQueue ∨
      ({ id := podUIDIdentifier "u1", podName := "web", ts := 10 } : deleteRequest).id ≠
        podUIDIdentifier "u1" := by
  exact c10_ignored_identifier_not_enqueued c10State
    { Name := "web", UID := "u1", StartTime := some 1 } 30 (podUIDIdentifier "u1")
    (podFromAPI (forgetPod (addOrUpdatePod c10Client0 c10PodA) c10PodA 10) c10PodB)
    (by decide) (by decide)
    { id := podUIDIdentifier "u1", podName := "web", ts := 10 } (by decide)

/-- Counterexample for C10: in the reordered-ignore scenario the table
holds an ignore-flagged record under the UID identifier, a delete
request for that identifier and pod name is already queued, and the
eviction drain removes the ignore-flagged entry. -/
theorem c10_counterexample :
    ((mapLookup c10State.Pods (podUIDIdentifier "u1")).map Pod.Ignore = some true) ∧
    (∃ d ∈ c10State.deleteQueue,
       d.id = podUIDIdentifier "u1" ∧ d.podName = "web") ∧
    mapLookup (deleteLoopTick c10State 20 5).Pods (podUIDIdentifier "u1") = none := by
  refine ⟨by decide, ⟨{ id := podUIDIdentifier "u1", podName := "web", ts := 10 }, by decide,
    by decide, by decide⟩, by decide⟩

/-! Delete-queue drain lemmas. -/

theorem applyDelete_lookup_cases (pods : List (PodIdentifier × Pod)) (d : deleteRequest)
    (id : PodIdentifier) :
    mapLookup (applyDelete pods d) id = mapLookup pods id ∨
    mapLookup (applyDelete pods d) id = none := by
  unfold applyDelete
  cases hl : mapLookup pods d.id with
  | none => exact Or.inl rfl
  | some p =>
    dsimp only
    by_cases hn : p.Name = d.podName
    · rw [if_pos hn, mapLookup_erase]
      by_cases hid : id = d.id
      · exact Or.inr (by rw [if_pos hid])
      · exact Or.inl (by rw [if_neg hid])
    · rw [if_neg hn]
      exact Or.inl rfl

theorem applyDelete_preserve (pods : List (PodIdentifier × Pod)) (d : deleteRequest)
    (id : PodIdentifier) (p : Pod) (hl : mapLookup pods id = some p)
    (hg : d.id = id → d.podName ≠ p.Name) :
    mapLookup (applyDelete pods d) id = some p := by
  unfold applyDelete
  cases hdl : mapLookup pods d.id with
  | none => exact hl
  | some q =>
    dsimp only
    by_cases hn : q.Name = d.podName
    · rw [if_pos hn, mapLookup_erase]
      by_cases hid : id = d.id
      · subst hid
        rw [hl] at hdl
        cases hdl
        exact absurd hn.symm (hg rfl)
      · rw [if_neg hid]
        exact hl
    · rw [if_neg hn]
      exact hl

theorem foldApply_preserve (reqs : List deleteRequest) :
    ∀ (pods : List (PodIdentifier × Pod)) (id : PodIdentifier) (p : Pod),
      mapLookup pods id = some p →
      (∀ d ∈ reqs, d.id = id → d.podName ≠ p.Name) →
      mapLookup (reqs.foldl applyDelete pods) id = some p := by
  induction reqs with
  | nil => intro pods id p hl _; exact hl
  | cons d rest ih =>
    intro pods id p hl hg
    simp only [List.foldl_cons]
    exact ih (applyDelete pods d)  id p
      (applyDelete_preserve pods d id p hl (hg d (List.mem_cons_self d rest)))
      (fun d2 h2 => hg d2 (List.mem_cons_of_mem d h2))

theorem foldApply_none (reqs : List deleteRequest) :
    ∀ (pods : List (PodIdentifier × Pod)) (id : PodIdentifier),
      mapLookup pods id = none →
      mapLookup (reqs.foldl applyDelete pods) id = none := by
  induction reqs with
  | nil => intro pods id hl; exact hl
  | cons d rest ih =>
    intro pods id hl
    simp only [List.foldl_cons]
    rcases applyDelete_lookup_cases pods d id with h | h
    · exact ih (applyDelete pods d) id (h.trans hl)
    · exact ih (applyDelete pods d) id h

theorem foldApply_removes (reqs : List deleteRequest) :
    ∀ (pods : List (PodIdentifier × Pod)) (d : deleteRequest) (p : Pod),
      d ∈ reqs →
      mapLookup pods d.id = some p →
      p.Name = d.podName →
      mapLookup (reqs.foldl applyDelete pods) d.id = none := by
  induction reqs with
  | nil => intro _ _ _ h; cases h
  | cons r rest ih =>
    intro pods d p hmem hl hn
    simp only [List.foldl_cons]
    rcases List.mem_cons.mp hmem with rfl | hmem2
    · have herase : mapLookup (applyDelete pods d) d.id = none := by
        unfold applyDelete
        rw [hl]
        change mapLookup (if p.Name = d.podName then mapErase pods d.id else pods) d.id = none
        rw [if_pos hn, mapLookup_erase, if_pos rfl]
      exact foldApply_none rest (applyDelete pods d) d.id herase
    · rcases applyDelete_lookup_cases pods r d.id with h | h
      · exact ih (applyDelete pods r) d p hmem2 (h.trans hl) hn
      · exact foldApply_none rest (applyDelete pods r) d.id h

theorem drainSplit_append (now gracePeriod : Time) (q : List deleteRequest) :
    (drainSplit now gracePeriod q).1 ++ (drainSplit now gracePeriod q).2 = q := by
  induction q with
  | nil => rfl
  | cons d rest ih =>
    unfold drainSplit
    by_cases h : d.ts + gracePeriod > now
    · rw [if_pos h]; rfl
    · rw [if_neg h]
      simpa using ih


theorem drainSplit_applied_old (now gracePeriod : Time) (q : List deleteRequest) :
    ∀ d ∈ (drainSplit now gracePeriod q).1, d.ts + gracePeriod ≤ now := by
  induction q with
  | nil => intro d h; cases h
  | cons r rest ih =>
    intro d hd
    unfold drainSplit at hd
    by_cases h : r.ts + gracePeriod > now
    · rw [if_pos h] at hd
      cases hd
    · rw [if_neg h] at hd
      rcases List.mem_cons.mp hd with rfl | hd2
      · exact le_of_not_lt h
      · exact ih d hd2

theorem drainSplit_mem_queue (now gracePeriod : Time) (q : List deleteRequest) :
    ∀ d ∈ (drainSplit now gracePeriod q).1, d ∈ q := by
  intro d hd
  rw [← drainSplit_append now gracePeriod q]
  exact List.mem_append.mpr (Or.inl hd)

theorem drainSplit_mem_of_sorted (now gracePeriod : Time) (q : List deleteRequest)
    (hsort : List.Pairwise (fun d1 d2 => d1.ts ≤ d2.ts) q) :
    ∀ d ∈ q, d.ts + gracePeriod ≤ now → d ∈ (drainSplit now gracePeriod q).1 := by
  induction q with
  | nil => intro d h; cases h
  | cons r rest ih =>
    intro d hd hold
    rcases List.mem_cons.mp hd with rfl | hd2
    · unfold drainSplit
      rw [if_neg (not_lt.mpr hold)]
      exact List.mem_cons_self _ _
    · have hr : r.ts ≤ d.ts := (List.pairwise_cons.mp hsort).1 d hd2
      have hmid : r.ts + gracePeriod ≤ d.ts + gracePeriod :=
        add_le_add_right hr gracePeriod
      have hrold : ¬ r.ts + gracePeriod > now := not_lt.mpr (le_trans hmid hold)
      unfold drainSplit
      rw [if_neg hrold]
      exact List.mem_cons_of_mem r (ih (List.pairwise_cons.mp hsort).2 d hd2 hold)

/-- Claim C2: a queued DeleteRequest applied by the eviction drain
removes the pod-table entry under its identifier only if the stored
record name equals the pod name recorded in the request; in
particular an identifier reassigned to a pod with a different name
keeps its entry through the drain. -/
theorem c2_delete_name_guard :
    (∀ (pods : List (PodIdentifier × Pod)) (d : deleteRequest) (p : Pod),
       mapLookup pods d.id = some p → p.Name ≠ d.podName →
       applyDelete pods d = pods) ∧
    (∀ (c : WatchClient) (now gracePeriod : Time) (id : PodIdentifier) (p : Pod),
       mapLookup c.Pods id = some p →
       (∀ d ∈ (drainSplit now gracePeriod c.deleteQueue).1,
          d.id = id → d.podName ≠ p.Name) →
       mapLookup (deleteLoopTick c now gracePeriod).Pods id = some p) := by
  constructor
  · intro pods d p hl hn
    unfold applyDelete
    rw [hl]
    change (if p.Name = d.podName then mapErase pods d.id else pods) = pods
    rw [if_neg hn]
  · intro c now gracePeriod id p hl hg
    exact foldApply_preserve (drainSplit now gracePeriod c.deleteQueue).1 c.Pods id p hl hg

/-- Witness for C2: a request whose recorded name no longer matches the
stored record is a no-op, and a tick over such a queue keeps the entry. -/
theorem c2_witness :
    (applyDelete [(podUIDIdentifier "u1", { Name := "new", PodUID := "u1" })]
        { id := podUIDIdentifier "u1", podName := "old", ts := 0 } =
      [(podUIDIdentifier "u1", { Name := "new", PodUID := "u1" })]) ∧
    mapLookup (deleteLoopTick
        { Rules := {}, Associations := [], Exclude := {},
          deleteQueue := [{ id := podUIDIdentifier "u1", podName := "old", ts := 0 }],
          Pods := [(podUIDIdentifier "u1", { Name := "new", PodUID := "u1" })] }
        100 5).Pods (podUIDIdentifier "u1") =
      some { Name := "new", PodUID := "u1" } := by
  constructor
  · exact c2_delete_name_guard.1
      [(podUIDIdentifier "u1", { Name := "new", PodUID := "u1" })]
      { id := podUIDIdentifier "u1", podName := "old", ts := 0 }
      { Name := "new", PodUID := "u1" } (by decide) (by decide)
  · exact c2_delete_name_guard.2
      { Rules := {}, Associations := [], Exclude := {},
        deleteQueue := [{ id := podUIDIdentifier "u1", podName := "old", ts := 0 }],
        Pods := [(podUIDIdentifier "u1", { Name := "new", PodUID := "u1" })] }
      100 5 (podUIDIdentifier "u1") { Name := "new", PodUID := "u1" }
      (by decide) (by decide)

/-- Claim C3: the eviction drain dequeues exactly a prefix of the
queue, stopping at the first entry younger than the grace period; every
applied request is at least gracePeriod old, so an entry whose queued
requests are all younger survives the tick; and in a time-ordered
queue a request older than the grace period removes its entry when the
stored name still matches. -/
theorem c3_grace_period_drain :
    (∀ (now gracePeriod : Time) (q : List deleteRequest),
       (drainSplit now gracePeriod q).1 ++ (drainSplit now gracePeriod q).2 = q) ∧
    (∀ (now gracePeriod : Time) (q : List deleteRequest),
       ∀ d ∈ (drainSplit now gracePeriod q).1, d.ts + gracePeriod ≤ now) ∧
    (∀ (c : WatchClient) (now gracePeriod : Time) (id : PodIdentifier) (p : Pod),
       mapLookup c.Pods id = some p →
       (∀ d ∈ c.deleteQueue, d.id = id → now < d.ts + gracePeriod) →
       mapLookup (deleteLoopTick c now gracePeriod).Pods id = some p) ∧
    (∀ (c : WatchClient) (now gracePeriod : Time) (d : deleteRequest) (p : Pod),
       List.Pairwise (fun d1 d2 => d1.ts ≤ d2.ts) c.deleteQueue →
       d ∈ c.deleteQueue → d.ts + gracePeriod ≤ now →
       mapLookup c.Pods d.id = some p → p.Name = d.podName →
       mapLookup (deleteLoopTick c now gracePeriod).Pods d.id = none) := by
  refine ⟨drainSplit_append, drainSplit_applied_old, ?_, ?_⟩
  · intro c now gracePeriod id p hl hg
    have hg2 : ∀ d ∈ (drainSplit now gracePeriod c.deleteQueue).1,
        d.id = id → d.podName ≠ p.Name := by
      intro d hd hdid
      have hold := drainSplit_applied_old now gracePeriod c.deleteQueue d hd
      have hyoung := hg d (drainSplit_mem_queue now gracePeriod c.deleteQueue d hd) hdid
      exact absurd hold (not_le.mpr hyoung)
    exact foldApply_preserve (drainSplit now gracePeriod c.deleteQueue).1 c.Pods id p hl hg2
  · intro c now gracePeriod d p hsort hmem hold hl hn
    have hd1 : d ∈ (drainSplit now gracePeriod c.deleteQueue).1 :=
      drainSplit_mem_of_sorted now gracePeriod c.deleteQueue hsort d hmem hold
    exact foldApply_removes (drainSplit now gracePeriod c.deleteQueue).1 c.Pods d p hd1 hl hn

/-- Witness for C3: with a request queued at time 10 and grace period
5, a tick at time 12 keeps the entry and a tick at time 20 removes it. -/
theorem c3_witness :
    (mapLookup (deleteLoopTick
        { Rules := {}, Associations := [], Exclude := {},
          deleteQueue := [{ id := podUIDIdentifier "u1", podName := "web", ts := 10 }],
          Pods := [(podUIDIdentifier "u1", { Name := "web", PodUID := "u1" })] }
        12 5).Pods (podUIDIdentifier "u1") = some { Name := "web", PodUID := "u1" }) ∧
    mapLookup (deleteLoopTick
        { Rules := {}, Associations := [], Exclude := {},
          deleteQueue := [{ id := podUIDIdentifier "u1", podName := "web", ts := 10 }],
          Pods := [(podUIDIdentifier "u1", { Name := "web", PodUID := "u1" })] }
        20 5).Pods (podUIDIdentifier "u1") = none := by
  constructor
  · exact c3_grace_period_drain.2.2.1
      { Rules := {}, Associations := [], Exclude := {},
        deleteQueue := [{ id := podUIDIdentifier "u1", podName := "web", ts := 10 }],
        Pods := [(podUIDIdentifier "u1", { Name := "web", PodUID := "u1" })] }
      12 5 (podUIDIdentifier "u1") { Name := "web", PodUID := "u1" }
      (by decide) (by decide)
  · exact c3_grace_period_drain.2.2.2
      { Rules := {}, Associations := [], Exclude := {},
        deleteQueue := [{ id := podUIDIdentifier "u1", podName := "web", ts := 10 }],
        Pods := [(podUIDIdentifier "u1", { Name := "web", PodUID := "u1" })] }
      20 5 { id := podUIDIdentifier "u1", podName := "web", ts := 10 }
      { Name := "web", PodUID := "u1" }
      (by decide) (by decide) (by decide) (by decide) (by decide)

/-! Host-network pods and connection identifiers. -/

theorem resolveAssoc_of_none (pod : Pod) (assoc : Association)
    (hb : buildAssocId pod 0 assoc.Sources emptyIdentifier none = none) :
    resolveAssoc pod assoc = [] := by
  unfold resolveAssoc
  rw [hb]

theorem resolveAssoc_of_single (pod : Pod) (assoc : Association) (ret : PodIdentifier)
    (hb : buildAssocId pod 0 assoc.Sources emptyIdentifier none = some (ret, none)) :
    resolveAssoc pod assoc = [ret] := by
  unfold resolveAssoc
  rw [hb]

theorem resolveAssoc_of_fanout (pod : Pod) (assoc : Association) (ret : PodIdentifier)
    (pos : Nat)
    (hb : buildAssocId pod 0 assoc.Sources emptyIdentifier none = some (ret, some pos)) :
    resolveAssoc pod assoc =
      pod.Containers.ByID.map
        (fun cID =>
          setAttr ret pos
            (PodIdentifierAttributeFromSource ⟨ResourceSource, ContainerIDKey⟩ cID)) := by
  unfold resolveAssoc
  rw [hb]

theorem buildAssocId_conn_skip (pod : Pod) (hn : pod.HostNetwork = true) :
    ∀ (sources : List AssociationSource) (i : Nat) (ret : PodIdentifier) (pos : Option Nat),
      sources.any (fun s => s.From == ConnectionSource) = true →
      buildAssocId pod i sources ret pos = none := by
  intro sources
  induction sources with
  | nil => intro i ret pos h; cases h
  | cons s rest ih =>
    intro i ret pos h
    unfold buildAssocId
    by_cases hc : s.From = ConnectionSource
    · rw [if_pos hc]
      by_cases ha : pod.Address = ""
      · rw [if_pos ha]
      · simp [ha, hn]
    · have hrest : rest.any (fun s => s.From == ConnectionSource) = true := by
        simp only [List.any_cons, Bool.or_eq_true, beq_iff_eq] at h
        rcases h with h | h
        · exact absurd h hc
        · simpa using h
      rw [if_neg hc]
      by_cases hr : s.From = ResourceSource
      · rw [if_pos hr]
        by_cases hcid : s.Name = ContainerIDKey
        · rw [if_pos hcid]
          exact ih (i + 1) _ _ hrest
        · rw [if_neg hcid]
          by_cases hskip : resolveResourceAttr pod s.Name = "" ∧ pos = none
          · rw [if_pos hskip]
          · rw [if_neg hskip]
            exact ih (i + 1) _ _ hrest
      · rw [if_neg hr]
        exact ih (i + 1) _ _ hrest

theorem idHasConnection_setAttr (id : PodIdentifier) (i : Nat) (a : PodIdentifierAttribute)
    (ha : attrIsConnection a = false) (hid : idHasConnection id = false) :
    idHasConnection (setAttr id i a) = false := by
  rcases i with _ | _ | _ | _ | i <;>
    simp_all [setAttr, idHasConnection]

theorem idHasConnection_singleId_resourceAttr (key value : String) :
    idHasConnection (singleId (PodIdentifierAttributeFromResourceAttribute key value)) =
      false := by
  simp [idHasConnection, singleId, attrIsConnection, emptyAttr,
    PodIdentifierAttributeFromResourceAttribute, PodIdentifierAttributeFromSource,
    ResourceSource, ConnectionSource]

theorem buildAssocId_no_conn (pod : Pod) :
    ∀ (sources : List AssociationSource) (i : Nat) (ret : PodIdentifier) (pos : Option Nat)
      (ret2 : PodIdentifier) (pos2 : Option Nat),
      idHasConnection ret = false →
      pod.HostNetwork = true →
      buildAssocId pod i sources ret pos = some (ret2, pos2) →
      idHasConnection ret2 = false := by
  intro sources
  induction sources with
  | nil =>
    intro i ret pos ret2 pos2 hret _ heq
    unfold buildAssocId at heq
    cases heq
    exact hret
  | cons s rest ih =>
    intro i ret pos ret2 pos2 hret hn heq
    unfold buildAssocId at heq
    by_cases hc : s.From = ConnectionSource
    · rw [if_pos hc] at heq
      by_cases ha : pod.Address = ""
      · rw [if_pos ha] at heq; cases heq
      · simp [ha, hn] at heq
    · rw [if_neg hc] at heq
      by_cases hr : s.From = ResourceSource
      · rw [if_pos hr] at heq
        by_cases hcid : s.Name = ContainerIDKey
        · rw [if_pos hcid] at heq
          refine ih (i + 1) _ _ ret2 pos2 ?_ hn heq
          exact idHasConnection_setAttr ret i _
            (by simp [attrIsConnection, PodIdentifierAttributeFromSource, hc]) hret
        · rw [if_neg hcid] at heq
          by_cases hskip : resolveResourceAttr pod s.Name = "" ∧ pos = none
          · rw [if_pos hskip] at heq; cases heq
          · rw [if_neg hskip] at heq
            refine ih (i + 1) _ _ ret2 pos2 ?_ hn heq
            exact idHasConnection_setAttr ret i _
              (by simp [attrIsConnection, PodIdentifierAttributeFromSource, hc]) hret
      · rw [if_neg hr] at heq
        exact ih (i + 1) _ _ ret2 pos2 hret hn heq

/-- Claim C5: a host-network pod record produces no connection-based
identifier: every association rule containing a connection source
contributes no identifiers, and no identifier produced by
getIdentifiersFromAssoc (the address-based fallbacks included) carries
a connection-source attribute. -/
theorem c5_host_network_no_connection :
    ∀ (assocs : List Association) (pod : Pod), pod.HostNetwork = true →
      (∀ assoc ∈ assocs, hasConnectionSource assoc = true →
        resolveAssoc pod assoc = []) ∧
      (∀ id ∈ getIdentifiersFromAssoc assocs pod, idHasConnection id = false) := by
  intro assocs pod hn
  constructor
  · intro assoc _ hc
    exact resolveAssoc_of_none pod assoc
      (buildAssocId_conn_skip pod hn assoc.Sources 0 emptyIdentifier none hc)
  · intro id hid
    unfold getIdentifiersFromAssoc at hid
    rcases List.mem_append.mp hid with hid | hid
    · obtain ⟨assoc, _, hidr⟩ := List.mem_flatMap.mp hid
      cases hb : buildAssocId pod 0 assoc.Sources emptyIdentifier none with
      | none =>
        rw [resolveAssoc_of_none pod assoc hb] at hidr
        cases hidr
      | some rp =>
        obtain ⟨ret, pos⟩ := rp
        have hret : idHasConnection ret = false :=
          buildAssocId_no_conn pod assoc.Sources 0 emptyIdentifier none ret pos
            (by decide) hn hb
        cases pos with
        | none =>
          rw [resolveAssoc_of_single pod assoc ret hb] at hidr
          rcases List.mem_singleton.mp hidr with rfl
          exact hret
        | some p1 =>
          rw [resolveAssoc_of_fanout pod assoc ret p1 hb] at hidr
          obtain ⟨cID, _, rfl⟩ := List.mem_map.mp hidr
          exact idHasConnection_setAttr ret p1
            (PodIdentifierAttributeFromSource ⟨ResourceSource, ContainerIDKey⟩ cID)
            (by simp [attrIsConnection, PodIdentifierAttributeFromSource, ResourceSource,
              ConnectionSource]) hret
    · unfold podFallbackIdentifiers at hid
      have hfalse : ¬ (pod.Address ≠ "" ∧ pod.HostNetwork = false) := by
        intro hand
        rw [hn] at hand
        exact absurd hand.2 (by simp)
      rw [if_neg hfalse] at hid
      by_cases hu : pod.PodUID ≠ ""
      · rw [if_pos hu] at hid
        simp only [List.append_nil] at hid
        have heq := List.mem_singleton.mp hid
        subst heq
        exact idHasConnection_singleId_resourceAttr K8SPodUIDKey pod.PodUID
      · rw [if_neg hu] at hid
        simp at hid

/-- Witness for C5: a concrete host-network pod with an address and a
connection association rule yields no rule identifiers and no
connection attribute anywhere. -/
theorem c5_witness :
    (resolveAssoc { Name := "hostpod", Address := "10.0.0.7", HostNetwork := true }
        { Sources := [{ From := ConnectionSource, Name := "" }] } = []) ∧
    ∀ id ∈ getIdentifiersFromAssoc
        [{ Sources := [{ From := ConnectionSource, Name := "" }] }]
        { Name := "hostpod", Address := "10.0.0.7", HostNetwork := true,
          PodUID := "hu" },
      idHasConnection id = false := by
  constructor
  · exact (c5_host_network_no_connection
        [{ Sources := [{ From := ConnectionSource, Name := "" }] }]
        { Name := "hostpod", Address := "10.0.0.7", HostNetwork := true } rfl).1
      { Sources := [{ From := ConnectionSource, Name := "" }] }
      (by decide) (by decide)
  · exact (c5_host_network_no_connection
        [{ Sources := [{ From := ConnectionSource, Name := "" }] }]
        { Name := "hostpod", Address := "10.0.0.7", HostNetwork := true,
          PodUID := "hu" } rfl).2

/-! Container-ID fan-out. -/

theorem getAttr_setAttr_ne (id : PodIdentifier) (i j : Nat) (a : PodIdentifierAttribute)
    (h : j ≠ i) : getAttr (setAttr id i a) j = getAttr id j := by
  rcases i with _ | _ | _ | _ | i <;> rcases j with _ | _ | _ | _ | j <;>
    simp_all [setAttr, getAttr]

theorem buildAssocId_pos_some (pod : Pod) :
    ∀ (sources : List AssociationSource) (i j : Nat) (ret ret2 : PodIdentifier)
      (pos2 : Option Nat),
      buildAssocId pod i sources ret (some j) = some (ret2, pos2) → pos2.isSome := by
  intro sources
  induction sources with
  | nil =>
    intro i j ret ret2 pos2 heq
    unfold buildAssocId at heq
    cases heq
    rfl
  | cons s rest ih =>
    intro i j ret ret2 pos2 heq
    unfold buildAssocId at heq
    by_cases hc : s.From = ConnectionSource
    · rw [if_pos hc] at heq
      by_cases ha : pod.Address = ""
      · rw [if_pos ha] at heq; cases heq
      · rw [if_neg ha] at heq
        cases hh : pod.HostNetwork
        · simp only [hh] at heq
          simp only [if_false, Bool.false_eq_true] at heq
          exact ih (i + 1) j _ ret2 pos2 heq
        · simp [hh] at heq
    · rw [if_neg hc] at heq
      by_cases hr : s.From = ResourceSource
      · rw [if_pos hr] at heq
        by_cases hcid : s.Name = ContainerIDKey
        · rw [if_pos hcid] at heq
          exact ih (i + 1) i _ ret2 pos2 heq
        · rw [if_neg hcid] at heq
          by_cases hskip : resolveResourceAttr pod s.Name = "" ∧ (some j : Option Nat) = none
          · rw [if_pos hskip] at heq; cases heq
          · rw [if_neg hskip] at heq
            exact ih (i + 1) j _ ret2 pos2 heq
      · rw [if_neg hr] at heq
        exact ih (i + 1) j _ ret2 pos2 heq

theorem buildAssocId_container_pos (pod : Pod) :
    ∀ (sources : List AssociationSource) (i : Nat) (ret ret2 : PodIdentifier)
      (pos2 : Option Nat),
      sources.any (fun s => s.From == ResourceSource && s.Name == ContainerIDKey) = true →
      buildAssocId pod i sources ret none = some (ret2, pos2) → pos2.isSome := by
  intro sources
  induction sources with
  | nil => intro i ret ret2 pos2 h; cases h
  | cons s rest ih =>
    intro i ret ret2 pos2 hany heq
    unfold buildAssocId at heq
    by_cases hc : s.From = ConnectionSource
    · have hrest : rest.any
          (fun s => s.From == ResourceSource && s.Name == ContainerIDKey) = true := by
        simp only [List.any_cons, Bool.or_eq_true, Bool.and_eq_true, beq_iff_eq] at hany
        rcases hany with ⟨h1, _⟩ | h
        · rw [hc] at h1
          exact absurd h1 (by decide)
        · simpa using h
      rw [if_pos hc] at heq
      by_cases ha : pod.Address = ""
      · rw [if_pos ha] at heq; cases heq
      · rw [if_neg ha] at heq
        cases hh : pod.HostNetwork
        · simp only [hh] at heq
          simp only [if_false, Bool.false_eq_true] at heq
          exact ih (i + 1) _ ret2 pos2 hrest heq
        · simp [hh] at heq
    · rw [if_neg hc] at heq
      by_cases hr : s.From = ResourceSource
      · rw [if_pos hr] at heq
        by_cases hcid : s.Name = ContainerIDKey
        · rw [if_pos hcid] at heq
          exact buildAssocId_pos_some pod rest (i + 1) i _ ret2 pos2 heq
        · have hrest : rest.any
              (fun s => s.From == ResourceSource && s.Name == ContainerIDKey) = true := by
            simp only [List.any_cons, Bool.or_eq_true, Bool.and_eq_true, beq_iff_eq] at hany
            rcases hany with ⟨_, h2⟩ | h
            · exact absurd h2 hcid
            · simpa using h
          rw [if_neg hcid] at heq
          by_cases hskip : resolveResourceAttr pod s.Name = "" ∧ (none : Option Nat) = none
          · rw [if_pos hskip] at heq; cases heq
          · rw [if_neg hskip] at heq
            exact ih (i + 1) _ ret2 pos2 hrest heq
      · have hrest : rest.any
            (fun s => s.From == ResourceSource && s.Name == ContainerIDKey) = true := by
          simp only [List.any_cons, Bool.or_eq_true, Bool.and_eq_true, beq_iff_eq] at hany
          rcases hany with ⟨h1, _⟩ | h
          · exact absurd h1 hr
          · simpa using h
        rw [if_neg hr] at heq
        exact ih (i + 1) _ ret2 pos2 hrest heq

/-- Claim C6 (amended): an association rule containing a container-ID
resource-attribute source that is not skipped by its other sources
yields exactly one identifier per container ID on the pod record, all
identical except for the value at the container-ID position. -/
theorem c6_container_id_fanout :
    ∀ (pod : Pod) (assoc : Association),
      hasContainerIDSource assoc = true →
      buildAssocId pod 0 assoc.Sources emptyIdentifier none ≠ none →
      ∃ (ret : PodIdentifier) (pos : Nat),
        buildAssocId pod 0 assoc.Sources emptyIdentifier none = some (ret, some pos) ∧
        resolveAssoc pod assoc =
          pod.Containers.ByID.map (fun cID => setAttr ret pos
            (PodIdentifierAttributeFromSource ⟨ResourceSource, ContainerIDKey⟩ cID)) ∧
        (resolveAssoc pod assoc).length = pod.Containers.ByID.length ∧
        ∀ id ∈ resolveAssoc pod assoc, ∀ j, j ≠ pos → getAttr id j = getAttr ret j := by
  intro pod assoc hc hnn
  cases hb : buildAssocId pod 0 assoc.Sources emptyIdentifier none with
  | none => exact absurd hb hnn
  | some rp =>
    obtain ⟨ret, pos⟩ := rp
    cases pos with
    | none =>
      have hsome := buildAssocId_container_pos pod assoc.Sources 0 emptyIdentifier ret none
        hc hb
      cases hsome
    | some p1 =>
      refine ⟨ret, p1, rfl, resolveAssoc_of_fanout pod assoc ret p1 hb, ?_, ?_⟩
      · rw [resolveAssoc_of_fanout pod assoc ret p1 hb, List.length_map]
      · intro id hidm j hj
        rw [resolveAssoc_of_fanout pod assoc ret p1 hb] at hidm
        obtain ⟨cID, _, rfl⟩ := List.mem_map.mp hidm
        exact getAttr_setAttr_ne ret p1 j _ hj

/-- Witness for C6 (amended): the single-source container-ID rule on a
pod with two container IDs yields exactly two identifiers. -/
theorem c6_witness :
    ∃ (ret : PodIdentifier) (pos : Nat),
      buildAssocId { Name := "p", Containers := { ByID := ["c1", "c2"] } } 0
        ({ Sources := [{ From := ResourceSource, Name := ContainerIDKey }] } :
          Association).Sources emptyIdentifier none = some (ret, some pos) ∧
      resolveAssoc { Name := "p", Containers := { ByID := ["c1", "c2"] } }
          { Sources := [{ From := ResourceSource, Name := ContainerIDKey }] } =
        ({ Name := "p", Containers := { ByID := ["c1", "c2"] } } :
          Pod).Containers.ByID.map (fun cID => setAttr ret pos
            (PodIdentifierAttributeFromSource ⟨ResourceSource, ContainerIDKey⟩ cID)) ∧
      (resolveAssoc { Name := "p", Containers := { ByID := ["c1", "c2"] } }
          { Sources := [{ From := ResourceSource, Name := ContainerIDKey }] }).length =
        ({ Name := "p", Containers := { ByID := ["c1", "c2"] } } :
          Pod).Containers.ByID.length ∧
      ∀ id ∈ resolveAssoc { Name := "p", Containers := { ByID := ["c1", "c2"] } }
          { Sources := [{ From := ResourceSource, Name := ContainerIDKey }] },
        ∀ j, j ≠ pos → getAttr id j = getAttr ret j := by
  exact c6_container_id_fanout
    { Name := "p", Containers := { ByID := ["c1", "c2"] } }
    { Sources := [{ From := ResourceSource, Name := ContainerIDKey }] }
    (by decide) (by decide)

/-- Counterexample for C6: a rule containing a container-ID source next
to a connection source is skipped entirely on a pod with an empty
address, yielding zero identifiers although the pod has one container
ID. -/
theorem c6_counterexample :
    hasContainerIDSource c6Assoc = true ∧
    c6Pod.Containers.ByID.length = 1 ∧
    resolveAssoc c6Pod c6Assoc = [] := by decide

/-- Claim C4 (amended): after per-rule resolution up to three
unconditional fallback identifiers are appended: by pod UID (if
non-empty) and, when the address is present and the pod is not
host-network, both a connection identifier and a k8s.pod.ip
resource-attribute identifier; for the walkthrough pod "web-1" the
identifier list is the rule identifier plus these fallbacks (the rule
identifier coincides with the pod-UID fallback, giving three distinct
identifiers) and GetPod on each of them returns the same record. -/
theorem c4_fallback_identifiers :
    (∀ (assocs : List Association) (pod : Pod),
       pod.PodUID ≠ "" → pod.Address ≠ "" → pod.HostNetwork = false →
       getIdentifiersFromAssoc assocs pod =
         assocs.flatMap (resolveAssoc pod) ++
           [singleId (PodIdentifierAttributeFromResourceAttribute K8SPodUIDKey pod.PodUID),
            singleId (PodIdentifierAttributeFromConnection pod.Address),
            singleId (PodIdentifierAttributeFromResourceAttribute K8sIPLabelName
              pod.Address)]) ∧
    (getIdentifiersFromAssoc webExampleClient.Associations webExamplePod =
       [singleId (PodIdentifierAttributeFromResourceAttribute K8SPodUIDKey "u1"),
        singleId (PodIdentifierAttributeFromResourceAttribute K8SPodUIDKey "u1"),
        singleId (PodIdentifierAttributeFromConnection "10.0.0.5"),
        singleId (PodIdentifierAttributeFromResourceAttribute K8sIPLabelName "10.0.0.5")]) ∧
    (∀ id ∈ getIdentifiersFromAssoc webExampleClient.Associations webExamplePod,
       GetPod (addOrUpdatePod webExampleClient webExampleAPIPod) id =
         some webExamplePod) := by
  refine ⟨?_, by decide, by decide⟩
  intro assocs pod hu ha hh
  unfold getIdentifiersFromAssoc podFallbackIdentifiers
  rw [if_pos hu, if_pos ⟨ha, hh⟩]
  rfl

/-- Witness for C4 (amended): the fallback shape at a concrete pod. -/
theorem c4_witness :
    getIdentifiersFromAssoc ([] : List Association)
        { Name := "w", PodUID := "wu", Address := "1.2.3.4" } =
      ([] : List Association).flatMap
          (resolveAssoc { Name := "w", PodUID := "wu", Address := "1.2.3.4" }) ++
        [singleId (PodIdentifierAttributeFromResourceAttribute K8SPodUIDKey "wu"),
         singleId (PodIdentifierAttributeFromConnection "1.2.3.4"),
         singleId (PodIdentifierAttributeFromResourceAttribute K8sIPLabelName "1.2.3.4")] := by
  exact c4_fallback_identifiers.1 []
    { Name := "w", PodUID := "wu", Address := "1.2.3.4" }
    (by decide) (by decide) (by decide)

/-- Counterexample for C4: resolving the walkthrough pod produces the
k8s.pod.ip fallback identifier, which is outside the three identifiers
the claim enumerates (rule identifier, pod-UID fallback, connection
fallback), and the fallback suffix has three entries, not two. -/
theorem c4_counterexample :
    singleId (PodIdentifierAttributeFromResourceAttribute K8sIPLabelName "10.0.0.5") ∈
      getIdentifiersFromAssoc webExampleClient.Associations webExamplePod ∧
    singleId (PodIdentifierAttributeFromResourceAttribute K8sIPLabelName "10.0.0.5") ∉
      [singleId (PodIdentifierAttributeFromResourceAttribute K8SPodUIDKey "u1"),
       singleId (PodIdentifierAttributeFromConnection "10.0.0.5")] ∧
    (podFallbackIdentifiers webExamplePod).length = 3 := by decide

/-! The ReplicaSet store under a configuration without deployment
identification. -/

theorem podFromAPI_DeploymentUID_empty (c : WatchClient) (pod : APIPod)
    (h : c.ReplicaSets = []) : (podFromAPI c pod).DeploymentUID = "" := by
  unfold podFromAPI
  have hrs : getReplicaSet c (getPodReplicaSetUID pod.OwnerReferences) = none := by
    unfold getReplicaSet
    rw [h]
    rfl
  simp only [hrs]
  repeat' split
  all_goals rfl

theorem applyEvent_ReplicaSets_of_not_rs (c : WatchClient) (e : KubeEvent)
    (h : ∀ rs, e ≠ .replicaSetAdd rs ∧ e ≠ .replicaSetUpdate rs ∧
      e ≠ .replicaSetDelete rs) :
    (applyEvent c e).ReplicaSets = c.ReplicaSets := by
  cases e with
  | podAdd pod => rfl
  | podUpdate pod => rfl
  | podDelete pod now =>
    show (forgetPod c pod now).ReplicaSets = c.ReplicaSets
    rw [forgetPod_eq]
  | namespaceAdd ns =>
    simp only [applyEvent, addOrUpdateNamespace]
    split <;> rfl
  | namespaceUpdate ns =>
    simp only [applyEvent, addOrUpdateNamespace]
    split <;> rfl
  | namespaceDelete ns =>
    simp only [applyEvent, handleNamespaceDelete]
    split <;> rfl
  | nodeAdd node =>
    simp only [applyEvent, addOrUpdateNode]
    split <;> rfl
  | nodeUpdate node =>
    simp only [applyEvent, addOrUpdateNode]
    split <;> rfl
  | nodeDelete node =>
    simp only [applyEvent, handleNodeDelete]
    split <;> rfl
  | deploymentAdd d =>
    simp only [applyEvent, addOrUpdateDeployment]
    split <;> rfl
  | deploymentUpdate d =>
    simp only [applyEvent, addOrUpdateDeployment]
    split <;> rfl
  | deploymentDelete d =>
    simp only [applyEvent, handleDeploymentDelete]
    split <;> rfl
  | statefulSetAdd s =>
    simp only [applyEvent, addOrUpdateStatefulSet]
    split <;> rfl
  | statefulSetUpdate s =>
    simp only [applyEvent, addOrUpdateStatefulSet]
    split <;> rfl
  | statefulSetDelete s =>
    simp only [applyEvent, handleStatefulSetDelete]
    split <;> rfl
  | replicaSetAdd rs => exact absurd rfl (h rs).1
  | replicaSetUpdate rs => exact absurd rfl (h rs).2.1
  | replicaSetDelete rs => exact absurd rfl (h rs).2.2
  | drainTick now gracePeriod => rfl

theorem runEvents_ReplicaSets_empty (rules : ExtractionRules)
    (hdis : replicaSetInformerEnabled rules = false) :
    ∀ (es : List KubeEvent) (c : WatchClient),
      (∀ e ∈ es, eventRegistered rules e = true) →
      c.ReplicaSets = [] →
      (runEvents c es).ReplicaSets = [] := by
  intro es
  induction es with
  | nil => intro c _ h; exact h
  | cons e rest ih =>
    intro c hreg hc
    have hne : ∀ rs, e ≠ KubeEvent.replicaSetAdd rs ∧ e ≠ KubeEvent.replicaSetUpdate rs ∧
        e ≠ KubeEvent.replicaSetDelete rs := by
      intro rs
      have hr := hreg e (List.mem_cons_self e rest)
      refine ⟨?_, ?_, ?_⟩ <;> intro heq <;> subst heq <;>
        simp [eventRegistered, hdis] at hr
    have hstep := applyEvent_ReplicaSets_of_not_rs c e hne
    exact ih (applyEvent c e) (fun e2 h2 => hreg e2 (List.mem_cons_of_mem e h2))
      (hstep.trans hc)

/-- Claim C9: with neither the deployment-name nor the deployment-UID
extraction rule configured, the ReplicaSet informer is never created or
started, the ReplicaSets store stays empty over any trace of registered
events from a fresh client, and every Pod record built by podFromAPI
has an empty DeploymentUID regardless of any ReplicaSet owner
references on the source pod. -/
theorem c9_no_deployment_rules :
    ∀ (rules : ExtractionRules) (assocs : List Association) (exclude : Excludes)
      (es : List KubeEvent),
      rules.DeploymentName = false → rules.DeploymentUID = false →
      (∀ e ∈ es, eventRegistered rules e = true) →
      replicaSetInformerEnabled rules = false ∧
      (runEvents (newWatchClient rules assocs exclude) es).ReplicaSets = [] ∧
      ∀ pod : APIPod,
        (podFromAPI (runEvents (newWatchClient rules assocs exclude) es)
          pod).DeploymentUID = "" := by
  intro rules assocs exclude es hdn hdu hreg
  have hdis : replicaSetInformerEnabled rules = false := by
    unfold replicaSetInformerEnabled
    rw [hdn, hdu]
    rfl
  have hempty : (runEvents (newWatchClient rules assocs exclude) es).ReplicaSets = [] :=
    runEvents_ReplicaSets_empty rules hdis es (newWatchClient rules assocs exclude) hreg
      rfl
  exact ⟨hdis, hempty, fun pod => podFromAPI_DeploymentUID_empty _ pod hempty⟩

/-- Witness for C9: a fresh client with no extraction rules processing
an Add for a pod that does carry a ReplicaSet owner reference. -/
theorem c9_witness :
    replicaSetInformerEnabled {} = false ∧
    (runEvents (newWatchClient {} [] {})
      [KubeEvent.podAdd
        { Name := "w", UID := "u",
          OwnerReferences :=
            [{ Kind := "ReplicaSet", Name := "rs1", UID := "rsu",
               Controller := some true }] }]).ReplicaSets = [] ∧
    ∀ pod : APIPod,
      (podFromAPI
        (runEvents (newWatchClient {} [] {})
          [KubeEvent.podAdd
            { Name := "w", UID := "u",
              OwnerReferences :=
                [{ Kind := "ReplicaSet", Name := "rs1", UID := "rsu",
                   Controller := some true }] }])
        pod).DeploymentUID = "" := by
  exact c9_no_deployment_rules {} [] {}
    [KubeEvent.podAdd
      { Name := "w", UID := "u",
        OwnerReferences :=
          [{ Kind := "ReplicaSet", Name := "rs1", UID := "rsu",
             Controller := some true }] }] rfl rfl (by decide)
